import Mathlib

/-!
# Semantic attributes of habitat-sim: a verification development

Shallow embedding of `src/esp/metadata/attributes/SemanticAttributes.h`
(classes `SemanticVolumeAttributes` and `SemanticAttributes`).

The two classes are thin typed accessors over the generic `Configuration`
store and the sub-attribute helpers of `AbstractAttributes`.  Those live in
`Configuration.h` and `AttributesBase.h`, which are not part of the sources at
hand; every definition that stands for one of them is marked
`Modelled from the spec:` and follows the design document (sections 3, 4.1,
4.2 and 7).  Everything else is translated from the header, accessor by
accessor.

C++ objects are values here.  A `std::shared_ptr` to a child configuration is
resolved by the name under which the child is stored, and a write through the
pointer is a write-back under that name.  Failures of the store are results of
type `Except ConfigError _`: a call that fails leaves no state behind, so a
statement about the state after a call is about a call that completes, and
the states on which the call completes are given with it.
-/

namespace Esp

/-! ## Values -/

/-- Bit pattern of a C++ `float`.  No arithmetic is ever done on it here: the
accessors only store and return it. -/
structure FloatBits where
  bits : Nat
deriving DecidableEq, Repr, Inhabited

/-- Bit pattern of a C++ `double`, stored and returned unchanged. -/
structure DoubleBits where
  bits : Nat
deriving DecidableEq, Repr, Inhabited

/-- The type `Magnum::Vector3`: three floats. -/
structure Vector3 where
  x : FloatBits
  y : FloatBits
  z : FloatBits
deriving DecidableEq, Repr, Inhabited

/-- The type `Magnum::Vector4` (also used for quaternions): four floats. -/
structure Vector4 where
  x : FloatBits
  y : FloatBits
  z : FloatBits
  w : FloatBits
deriving DecidableEq, Repr, Inhabited

/-- Modelled from the spec: the tagged union `Value` of `Configuration.h`
(section 3): one scalar, string or small vector together with its tag. -/
inductive Value where
  | bool (b : Bool)
  | int (i : Int)
  | double (d : DoubleBits)
  | string (s : String)
  | vec3 (v : Vector3)
  | vec4 (v : Vector4)
deriving DecidableEq, Repr, Inhabited

/-- Modelled from the spec: the failure taxonomy of section 7. -/
inductive ConfigError where
  | KeyNotFound
  | TypeMismatch
  | KindConflict
  | DuplicateKeyOnInsert
deriving DecidableEq, Repr, Inhabited

deriving instance DecidableEq for Except

/-- Reading a `Value` at type `bool` (the tag test of `get<bool>`). -/
def Value.asBool : Value → Option Bool
  | .bool b => some b
  | _ => none

/-- Reading a `Value` at type `int`. -/
def Value.asInt : Value → Option Int
  | .int i => some i
  | _ => none

/-- Reading a `Value` at type `double`. -/
def Value.asDouble : Value → Option DoubleBits
  | .double d => some d
  | _ => none

/-- Reading a `Value` at type `std::string`. -/
def Value.asString : Value → Option String
  | .string s => some s
  | _ => none

/-- Reading a `Value` at type `Magnum::Vector3`. -/
def Value.asVec3 : Value → Option Vector3
  | .vec3 v => some v
  | _ => none

/-! ## Insertion-ordered mappings -/

/-- Look a name up in an insertion-ordered mapping. -/
def assocFind {β : Type} : List (String × β) → String → Option β
  | [], _ => none
  | (k, v) :: rest, name => if k = name then some v else assocFind rest name

/-- Insert or overwrite: an existing entry keeps its place, a new one goes to
the end. -/
def assocUpsert {β : Type} : List (String × β) → String → β → List (String × β)
  | [], name, v => [(name, v)]
  | (k, w) :: rest, name, v =>
    if k = name then (k, v) :: rest else (k, w) :: assocUpsert rest name v

/-- Erase the entry of a name, if there is one. -/
def assocErase {β : Type} : List (String × β) → String → List (String × β)
  | [], _ => []
  | (k, w) :: rest, name =>
    if k = name then assocErase rest name else (k, w) :: assocErase rest name

/-! ## Configuration -/

/-- Modelled from the spec: the class `Configuration` of `Configuration.h`
(section 3): a mapping from names to values and a mapping from names to owned
child configurations, both ordered by insertion.  `Sub` is the type of the
children, as in the template argument of `editSubconfig<T>`. -/
structure Configuration (Sub : Type) where
  values : List (String × Value)
  subconfigs : List (String × Sub)
deriving DecidableEq, Repr, Inhabited

namespace Configuration

variable {Sub : Type}

/-- An empty configuration, as built by a default constructor. -/
def empty : Configuration Sub := { values := [], subconfigs := [] }

/-- Modelled from the spec: `hasValue(name)` (section 4.1), an existence
probe. -/
def hasValue (c : Configuration Sub) (name : String) : Bool :=
  (assocFind c.values name).isSome

/-- Modelled from the spec: `hasSubconfig(name)` (section 4.1), an existence
probe. -/
def hasSubconfig (c : Configuration Sub) (name : String) : Bool :=
  (assocFind c.subconfigs name).isSome

/-- Modelled from the spec: `get<T>(name)` (section 4.1): `KeyNotFound` if the
name is absent, `TypeMismatch` if the stored tag is not that of `T`.  The
argument `as` is the tag test for `T`. -/
def get {T : Type} (c : Configuration Sub) (name : String) (as : Value → Option T) :
    Except ConfigError T :=
  match assocFind c.values name with
  | none => .error .KeyNotFound
  | some v =>
    match as v with
    | some t => .ok t
    | none => .error .TypeMismatch

/-- Modelled from the spec: `set<T>(name, value)` (section 4.1): inserts or
overwrites; fails with `KindConflict` if the name currently holds a
subconfig. -/
def set (c : Configuration Sub) (name : String) (v : Value) :
    Except ConfigError (Configuration Sub) :=
  if c.hasSubconfig name then .error .KindConflict
  else .ok { c with values := assocUpsert c.values name v }

/-- Modelled from the spec: `editSubconfig<C>(name)` (section 4.1): the existing
child if present, otherwise a new empty one is constructed and inserted.  The
result is the configuration after the call and the child referred to. -/
def editSubconfig (c : Configuration Sub) (name : String) (fresh : Sub) :
    Configuration Sub × Sub :=
  match assocFind c.subconfigs name with
  | some child => (c, child)
  | none => ({ c with subconfigs := assocUpsert c.subconfigs name fresh }, fresh)

/-- Modelled from the spec: a write through the owning reference returned by
`editSubconfig`: the child stored under the name is replaced by its new
state. -/
def putSubconfig (c : Configuration Sub) (name : String) (child : Sub) :
    Configuration Sub :=
  { c with subconfigs := assocUpsert c.subconfigs name child }

/-- Modelled from the spec: `removeSubconfig(name)` (section 4.1): destroys the
child; no effect if absent. -/
def removeSubconfig (c : Configuration Sub) (name : String) : Configuration Sub :=
  { c with subconfigs := assocErase c.subconfigs name }

/-- Modelled from the spec: the number of subconfig entries (section 4.2,
`count()`). -/
def getNumSubconfigs (c : Configuration Sub) : Nat :=
  c.subconfigs.length

/-- Modelled from the spec: the name under which the element of index `i` of an
indexed sub-collection is stored (section 3: each point is independently
addressed by name).  The index is written in decimal. -/
def indexKey (i : Nat) : String :=
  toString i

/-- Modelled from the spec: the writing loop of
`setSubconfigValsOfTypeInVector` (`Configuration.h`): the values are stored
one by one with `set`, the element of index `i` under `indexKey i`. -/
def setIndexed (child : Configuration Sub) :
    Nat → List Value → Except ConfigError (Configuration Sub)
  | _, [] => .ok child
  | i, v :: rest =>
    match child.set (indexKey i) v with
    | .ok c1 => setIndexed c1 (i + 1) rest
    | .error e => .error e

/-- Modelled from the spec: the reading loop of
`getSubconfigValsOfTypeInVector` (`Configuration.h`): `n` elements are read
by name with `get<T>`, starting at index `i`, in index order. -/
def getIndexed {T : Type} (child : Configuration Sub) (as : Value → Option T) :
    Nat → Nat → Except ConfigError (List T)
  | _, 0 => .ok []
  | i, n + 1 =>
    match child.get (indexKey i) as with
    | .error e => .error e
    | .ok t =>
      match getIndexed child as (i + 1) n with
      | .ok ts => .ok (t :: ts)
      | .error e => .error e

/-- Modelled from the spec: `setSubconfigValsOfTypeInVector(name, vals)`
(`Configuration.h`; section 3: an ordered sequence stored as an indexed
sub-collection of scalar values).  The child is obtained with `editSubconfig`,
the sequence it held is dropped, the new one is written element by element and
the child is written back: the operation sets the vector, it does not add to
it. -/
def setSubconfigValsOfTypeInVector {S : Type} (c : Configuration (Configuration S))
    (name : String) (vals : List Value) :
    Except ConfigError (Configuration (Configuration S)) :=
  let (c1, child) := c.editSubconfig name empty
  match setIndexed { child with values := [] } 0 vals with
  | .ok child1 => .ok (c1.putSubconfig name child1)
  | .error e => .error e

/-- Modelled from the spec: `getSubconfigValsOfTypeInVector<T>(name)`
(`Configuration.h`): the elements of the indexed sub-collection stored under
the name, in index order; no element when there is no such child. -/
def getSubconfigValsOfTypeInVector {S T : Type} (c : Configuration (Configuration S))
    (name : String) (as : Value → Option T) : Except ConfigError (List T) :=
  match assocFind c.subconfigs name with
  | none => .ok []
  | some child => getIndexed child as 0 child.values.length

end Configuration

/-! ## SemanticVolumeAttributes -/

/-- The class `SemanticVolumeAttributes` (`SemanticAttributes.h`, l. 21-127): an
`AbstractAttributes`, that is a `Configuration` with a string handle and a
numeric ID (section 3).  Its children are plain configurations without
children of their own (the `poly_loop` sub-collection). -/
structure SemanticVolumeAttributes extends Configuration (Configuration Empty) where
  handle : String
  ID : Int
deriving DecidableEq, Repr, Inhabited

namespace SemanticVolumeAttributes

/-- Lift a result of the underlying store to the attributes object. -/
def withConfig (s : SemanticVolumeAttributes)
    (r : Except ConfigError (Configuration (Configuration Empty))) :
    Except ConfigError SemanticVolumeAttributes :=
  match r with
  | .ok c => .ok { s with toConfiguration := c }
  | .error e => .error e

/-- Method `getLabel` (l. 28). -/
def getLabel (s : SemanticVolumeAttributes) : Except ConfigError String :=
  s.toConfiguration.get "label" Value.asString

/-- Method `setLabel` (l. 33). -/
def setLabel (s : SemanticVolumeAttributes) (_label : String) :
    Except ConfigError SemanticVolumeAttributes :=
  s.withConfig (s.toConfiguration.set "label" (.string _label))

/-- Method `getFloorHeight` (l. 39). -/
def getFloorHeight (s : SemanticVolumeAttributes) : Except ConfigError DoubleBits :=
  s.toConfiguration.get "floor_height" Value.asDouble

/-- Method `setFloorHeight` (l. 45-47). -/
def setFloorHeight (s : SemanticVolumeAttributes) (_floor_height : DoubleBits) :
    Except ConfigError SemanticVolumeAttributes :=
  s.withConfig (s.toConfiguration.set "floor_height" (.double _floor_height))

/-- Method `getExtrusionHeight` (l. 52). -/
def getExtrusionHeight (s : SemanticVolumeAttributes) : Except ConfigError DoubleBits :=
  s.toConfiguration.get "extrusion_height" Value.asDouble

/-- Method `setExtrusionHeight` (l. 58-60). -/
def setExtrusionHeight (s : SemanticVolumeAttributes) (_extrusion_height : DoubleBits) :
    Except ConfigError SemanticVolumeAttributes :=
  s.withConfig (s.toConfiguration.set "extrusion_height" (.double _extrusion_height))

/-- Method `getMinBounds` (l. 65-67). -/
def getMinBounds (s : SemanticVolumeAttributes) : Except ConfigError Vector3 :=
  s.toConfiguration.get "min_bounds" Value.asVec3

/-- Method `setMinBounds` (l. 72-74). -/
def setMinBounds (s : SemanticVolumeAttributes) (_min_bounds : Vector3) :
    Except ConfigError SemanticVolumeAttributes :=
  s.withConfig (s.toConfiguration.set "min_bounds" (.vec3 _min_bounds))

/-- Method `getMaxBounds` (l. 79-81). -/
def getMaxBounds (s : SemanticVolumeAttributes) : Except ConfigError Vector3 :=
  s.toConfiguration.get "max_bounds" Value.asVec3

/-- Method `setMaxBounds` (l. 86-88). -/
def setMaxBounds (s : SemanticVolumeAttributes) (_max_bounds : Vector3) :
    Except ConfigError SemanticVolumeAttributes :=
  s.withConfig (s.toConfiguration.set "max_bounds" (.vec3 _max_bounds))

/-- Method `getPolyLoop` (l. 93-95). -/
def getPolyLoop (s : SemanticVolumeAttributes) : Except ConfigError (List Vector3) :=
  s.toConfiguration.getSubconfigValsOfTypeInVector "poly_loop" Value.asVec3

/-- Method `setPolyLoop` (l. 99-101). -/
def setPolyLoop (s : SemanticVolumeAttributes) (_polyLoop : List Vector3) :
    Except ConfigError SemanticVolumeAttributes :=
  s.withConfig
    (s.toConfiguration.setSubconfigValsOfTypeInVector "poly_loop" (_polyLoop.map Value.vec3))

end SemanticVolumeAttributes

/-! ## Sub-attribute collections -/

/-- Modelled from the spec: the synthesized name of a collection member
(`AttributesBase.h`; section 4.2): the fixed name stem followed by the ID in
decimal, as in `region_desc_0`. -/
def subAttrKey (objInstNamePrefix : String) (id : Int) : String :=
  objInstNamePrefix ++ toString id

/-- Modelled from the spec: `setSubAttributesInternal` of `AttributesBase.h`
(section 4.2, `add`): if the free-list is non-empty one ID is popped from it
and assigned to the instance, otherwise the ID is the current child count; the
instance is inserted as a new child under the synthesized name.  A name that
is already taken is the failure `DuplicateKeyOnInsert` of section 7.  The result
is the collection and the free-list after the call. -/
def setSubAttributesInternal (objInst : SemanticVolumeAttributes)
    (availableIDs : List Int) (subAttrConfig : Configuration SemanticVolumeAttributes)
    (objInstNamePrefix : String) :
    Except ConfigError (Configuration SemanticVolumeAttributes × List Int) :=
  let (id, rest) :=
    match availableIDs with
    | front :: others => (front, others)
    | [] => ((subAttrConfig.getNumSubconfigs : Int), [])
  let key := subAttrKey objInstNamePrefix id
  if subAttrConfig.hasSubconfig key then .error .DuplicateKeyOnInsert
  else
    .ok ({ subAttrConfig with
            subconfigs := subAttrConfig.subconfigs ++ [(key, { objInst with ID := id })] },
         rest)

/-- Modelled from the spec: `getSubAttributesListInternal` of `AttributesBase.h`
(section 4.2, `list()`): the children in ascending ID order. -/
def getSubAttributesListInternal (subAttrConfig : Configuration SemanticVolumeAttributes) :
    List SemanticVolumeAttributes :=
  (subAttrConfig.subconfigs.map Prod.snd).insertionSort (fun a b => a.ID ≤ b.ID)

/-- Modelled from the spec: `getNumSubAttributesInternal` of `AttributesBase.h`
(section 4.2, `count()`): the number of subconfig entries of the collection.
The first argument is the name stem the header passes. -/
def getNumSubAttributesInternal (_key : String)
    (subAttrConfig : Configuration SemanticVolumeAttributes) : Nat :=
  subAttrConfig.getNumSubconfigs

/-! ## SemanticAttributes -/

/-- The class `SemanticAttributes` (`SemanticAttributes.h`, l. 133-330): an
`AbstractAttributes` whose children are collections of
`SemanticVolumeAttributes`, with the deque `availableRegionInstIDs_` of released
IDs (l. 325), front first.  The member `regionAnnotationConfig_` (l. 318) is a
shared pointer to the child stored under `region_annotations`; see
`SemanticAttributes.regionAnnotationConfig_`. -/
structure SemanticAttributes extends
    Configuration (Configuration SemanticVolumeAttributes) where
  handle : String
  ID : Int
  availableRegionInstIDs_ : List Int
deriving DecidableEq, Repr, Inhabited

namespace SemanticAttributes

/-- Lift a result of the underlying store to the attributes object. -/
def withConfig (s : SemanticAttributes)
    (r : Except ConfigError (Configuration (Configuration SemanticVolumeAttributes))) :
    Except ConfigError SemanticAttributes :=
  match r with
  | .ok c => .ok { s with toConfiguration := c }
  | .error e => .error e

/-- Modelled from the spec: the constructor `SemanticAttributes(handle)`
(declared l. 135, defined in `SemanticAttributes.cpp`): the derived flag starts
false (section 8), the collection `region_annotations` is created on
construction (l. 315-317) and no ID has been released. -/
def create (handle : String) : SemanticAttributes :=
  { values := [("use_semantic_frame", .bool false)]
    subconfigs := [("region_annotations", Configuration.empty)]
    handle := handle
    ID := 0
    availableRegionInstIDs_ := [] }

/-- The object the member `regionAnnotationConfig_` (l. 318) points to: the
child stored under `region_annotations`, to which the constructor and
`clearRegionInstances` set the pointer with `editSubconfig`. -/
def regionAnnotationConfig_ (s : SemanticAttributes) :
    Configuration SemanticVolumeAttributes :=
  (s.toConfiguration.editSubconfig "region_annotations" Configuration.empty).2

/-- Method `getUseSpecifiedSemanticFrame` (l. 287-289). -/
def getUseSpecifiedSemanticFrame (s : SemanticAttributes) : Except ConfigError Bool :=
  s.toConfiguration.get "use_semantic_frame" Value.asBool

/-- Method `setUseSpecifiedSemanticFrame` (l. 296-298), protected. -/
def setUseSpecifiedSemanticFrame (s : SemanticAttributes) (useSemanticFrame : Bool) :
    Except ConfigError SemanticAttributes :=
  s.withConfig (s.toConfiguration.set "use_semantic_frame" (.bool useSemanticFrame))

/-- Method `setSemanticOrientUp` (l. 148-151). -/
def setSemanticOrientUp (s : SemanticAttributes) (semanticOrientUp : Vector3) :
    Except ConfigError SemanticAttributes :=
  match s.withConfig (s.toConfiguration.set "semantic_orient_up" (.vec3 semanticOrientUp)) with
  | .ok s1 => s1.setUseSpecifiedSemanticFrame true
  | .error e => .error e

/-- Method `getSemanticOrientUp` (l. 158-160). -/
def getSemanticOrientUp (s : SemanticAttributes) : Except ConfigError Vector3 :=
  s.toConfiguration.get "semantic_orient_up" Value.asVec3

/-- Method `setSemanticOrientFront` (l. 167-170). -/
def setSemanticOrientFront (s : SemanticAttributes) (semanticOrientFront : Vector3) :
    Except ConfigError SemanticAttributes :=
  match s.withConfig
      (s.toConfiguration.set "semantic_orient_front" (.vec3 semanticOrientFront)) with
  | .ok s1 => s1.setUseSpecifiedSemanticFrame true
  | .error e => .error e

/-- Method `getSemanticOrientFront` (l. 177-179). -/
def getSemanticOrientFront (s : SemanticAttributes) : Except ConfigError Vector3 :=
  s.toConfiguration.get "semantic_orient_front" Value.asVec3

/-- Method `setSemanticDescriptorFilename` (l. 186-189). -/
def setSemanticDescriptorFilename (s : SemanticAttributes)
    (semantic_descriptor_filename : String) : Except ConfigError SemanticAttributes :=
  s.withConfig
    (s.toConfiguration.set "semantic_descriptor_filename" (.string semantic_descriptor_filename))

/-- Method `getSemanticDescriptorFilename` (l. 195-197). -/
def getSemanticDescriptorFilename (s : SemanticAttributes) : Except ConfigError String :=
  s.toConfiguration.get "semantic_descriptor_filename" Value.asString

/-- Method `setSemanticAssetHandle` (l. 202-204). -/
def setSemanticAssetHandle (s : SemanticAttributes) (semanticAssetHandle : String) :
    Except ConfigError SemanticAttributes :=
  s.withConfig (s.toConfiguration.set "semantic_asset" (.string semanticAssetHandle))

/-- Method `getSemanticAssetHandle` (l. 209-211). -/
def getSemanticAssetHandle (s : SemanticAttributes) : Except ConfigError String :=
  s.toConfiguration.get "semantic_asset" Value.asString

/-- Method `setSemanticAssetType` (l. 213-215). -/
def setSemanticAssetType (s : SemanticAttributes) (semanticAssetType : Int) :
    Except ConfigError SemanticAttributes :=
  s.withConfig (s.toConfiguration.set "semantic_asset_type" (.int semanticAssetType))

/-- Method `getSemanticAssetType` (l. 216). -/
def getSemanticAssetType (s : SemanticAttributes) : Except ConfigError Int :=
  s.toConfiguration.get "semantic_asset_type" Value.asInt

/-- Method `setHasSemanticTextures` (l. 222-224). -/
def setHasSemanticTextures (s : SemanticAttributes) (hasSemanticTextures : Bool) :
    Except ConfigError SemanticAttributes :=
  s.withConfig (s.toConfiguration.set "has_semantic_textures" (.bool hasSemanticTextures))

/-- Method `getHasSemanticTextures` (l. 230-232). -/
def getHasSemanticTextures (s : SemanticAttributes) : Except ConfigError Bool :=
  s.toConfiguration.get "has_semantic_textures" Value.asBool

/-- Method `addRegionInstanceAttrs` (l. 237-241): the helper works on the deque
and on the collection behind `regionAnnotationConfig_`; both are written
back. -/
def addRegionInstanceAttrs (s : SemanticAttributes)
    (_regionInstance : SemanticVolumeAttributes) : Except ConfigError SemanticAttributes :=
  match setSubAttributesInternal _regionInstance s.availableRegionInstIDs_
      s.regionAnnotationConfig_ "region_desc_" with
  | .ok (cfg, ids) =>
    .ok { s with
          toConfiguration := s.toConfiguration.putSubconfig "region_annotations" cfg
          availableRegionInstIDs_ := ids }
  | .error e => .error e

/-- Method `getRegionInstances` (l. 246-249). -/
def getRegionInstances (s : SemanticAttributes) : List SemanticVolumeAttributes :=
  getSubAttributesListInternal s.regionAnnotationConfig_

/-- Method `getNumRegionInstances` (l. 254-256). -/
def getNumRegionInstances (s : SemanticAttributes) : Nat :=
  getNumSubAttributesInternal "region_desc_" s.regionAnnotationConfig_

/-- Method `clearRegionInstances` (l. 260-264): the child is removed and created
again with `editSubconfig`, to which `regionAnnotationConfig_` is set.  The
deque `availableRegionInstIDs_` is not touched. -/
def clearRegionInstances (s : SemanticAttributes) : SemanticAttributes :=
  let c1 := s.toConfiguration.removeSubconfig "region_annotations"
  { s with toConfiguration := (c1.editSubconfig "region_annotations" Configuration.empty).1 }

/-- The live children of `region_annotations`, name by name, in the order of
the mapping. -/
def regionChildren (s : SemanticAttributes) : List (String × SemanticVolumeAttributes) :=
  s.regionAnnotationConfig_.subconfigs

/-- The public mutators of `SemanticAttributes` (l. 148-264), each with its
arguments. -/
inductive Mutator where
  | setSemanticOrientUp (v : Vector3)
  | setSemanticOrientFront (v : Vector3)
  | setSemanticDescriptorFilename (name : String)
  | setSemanticAssetHandle (name : String)
  | setSemanticAssetType (t : Int)
  | setHasSemanticTextures (b : Bool)
  | addRegionInstanceAttrs (inst : SemanticVolumeAttributes)
  | clearRegionInstances
deriving DecidableEq, Repr

/-- One call of a public mutator. -/
def Mutator.apply : Mutator → SemanticAttributes → Except ConfigError SemanticAttributes
  | .setSemanticOrientUp v, s => s.setSemanticOrientUp v
  | .setSemanticOrientFront v, s => s.setSemanticOrientFront v
  | .setSemanticDescriptorFilename n, s => s.setSemanticDescriptorFilename n
  | .setSemanticAssetHandle n, s => s.setSemanticAssetHandle n
  | .setSemanticAssetType t, s => s.setSemanticAssetType t
  | .setHasSemanticTextures b, s => s.setHasSemanticTextures b
  | .addRegionInstanceAttrs inst, s => s.addRegionInstanceAttrs inst
  | .clearRegionInstances, s => .ok s.clearRegionInstances

/-- A call on the region collection: an add or a clear. -/
inductive RegionCall where
  | add (inst : SemanticVolumeAttributes)
  | clear
deriving DecidableEq, Repr

/-- A sequence of calls on the region collection, first call first; the first
failure ends the run. -/
def runRegionCalls (s : SemanticAttributes) :
    List RegionCall → Except ConfigError SemanticAttributes
  | [] => .ok s
  | .add inst :: rest =>
    match s.addRegionInstanceAttrs inst with
    | .ok s1 => runRegionCalls s1 rest
    | .error e => .error e
  | .clear :: rest => runRegionCalls s.clearRegionInstances rest

/-- A freshly constructed object, as far as the region collection goes: the
child `region_annotations` exists and is empty, and no ID has been released. -/
def Fresh (s : SemanticAttributes) : Prop :=
  assocFind s.subconfigs "region_annotations" = some Configuration.empty ∧
    s.availableRegionInstIDs_ = []

instance (s : SemanticAttributes) : Decidable (Fresh s) := by
  unfold Fresh; infer_instance

end SemanticAttributes

/-! ## Vocabulary of the statements -/

/-- A setter and its getter round-trip: whenever the call of the setter with
`v` completes, the getter returns `v` on the state it leaves; and the call
completes on every state that is valid for the setter. -/
def RoundTrip {S T : Type} (setter : S → T → Except ConfigError S)
    (getter : S → Except ConfigError T) (valid : S → Prop) : Prop :=
  ∀ (s : S) (v : T),
    (∀ s1, setter s v = .ok s1 → getter s1 = .ok v) ∧
      (valid s → ∃ s1, setter s v = .ok s1)

/-- The name is free for a value in the configuration: it does not hold a
subconfig, so that `set` accepts it (section 4.1). -/
def ValidName {Sub : Type} (c : Configuration Sub) (name : String) : Prop :=
  c.hasSubconfig name = false

instance {Sub : Type} (c : Configuration Sub) (name : String) :
    Decidable (ValidName c name) := by
  unfold ValidName; infer_instance

/-- The mappings `a` and `b` agree outside `keys`: a name that is not in `keys`
is bound in `b` exactly as it is in `a`, or in neither. -/
def SameExcept {β : Type} (keys : List String) (a b : List (String × β)) : Prop :=
  ∀ k, k ∉ keys → assocFind b k = assocFind a k

/-- The call that led from `s` to `s1` wrote only the values named in `keys`:
every other value, every subconfig, the handle and the ID are as before. -/
def SemanticVolumeAttributes.WroteOnlyValues (keys : List String)
    (s s1 : SemanticVolumeAttributes) : Prop :=
  SameExcept keys s.values s1.values ∧ s1.subconfigs = s.subconfigs ∧
    s1.handle = s.handle ∧ s1.ID = s.ID

/-- The call that led from `s` to `s1` wrote only the subconfigs named in
`keys`: every value, every other subconfig, the handle and the ID are as
before. -/
def SemanticVolumeAttributes.WroteOnlySubconfigs (keys : List String)
    (s s1 : SemanticVolumeAttributes) : Prop :=
  s1.values = s.values ∧ SameExcept keys s.subconfigs s1.subconfigs ∧
    s1.handle = s.handle ∧ s1.ID = s.ID

/-- Every getter of `SemanticVolumeAttributes` whose key is not in `keys`
returns the same on `s1` as on `s`. -/
def SemanticVolumeAttributes.GettersAgreeExcept (keys : List String)
    (s s1 : SemanticVolumeAttributes) : Prop :=
  ("label" ∉ keys → s1.getLabel = s.getLabel) ∧
    ("floor_height" ∉ keys → s1.getFloorHeight = s.getFloorHeight) ∧
    ("extrusion_height" ∉ keys → s1.getExtrusionHeight = s.getExtrusionHeight) ∧
    ("min_bounds" ∉ keys → s1.getMinBounds = s.getMinBounds) ∧
    ("max_bounds" ∉ keys → s1.getMaxBounds = s.getMaxBounds) ∧
    ("poly_loop" ∉ keys → s1.getPolyLoop = s.getPolyLoop)

/-- The value setters of `SemanticVolumeAttributes` (l. 33-88), each with its
argument. -/
inductive SemanticVolumeAttributes.Setter where
  | setLabel (v : String)
  | setFloorHeight (v : DoubleBits)
  | setExtrusionHeight (v : DoubleBits)
  | setMinBounds (v : Vector3)
  | setMaxBounds (v : Vector3)
deriving DecidableEq, Repr

/-- One call of a value setter of `SemanticVolumeAttributes`. -/
def SemanticVolumeAttributes.Setter.apply :
    SemanticVolumeAttributes.Setter → SemanticVolumeAttributes →
      Except ConfigError SemanticVolumeAttributes
  | .setLabel v, s => s.setLabel v
  | .setFloorHeight v, s => s.setFloorHeight v
  | .setExtrusionHeight v, s => s.setExtrusionHeight v
  | .setMinBounds v, s => s.setMinBounds v
  | .setMaxBounds v, s => s.setMaxBounds v

/-- The key a value setter of `SemanticVolumeAttributes` passes to `set`. -/
def SemanticVolumeAttributes.Setter.keys : SemanticVolumeAttributes.Setter → List String
  | .setLabel _ => ["label"]
  | .setFloorHeight _ => ["floor_height"]
  | .setExtrusionHeight _ => ["extrusion_height"]
  | .setMinBounds _ => ["min_bounds"]
  | .setMaxBounds _ => ["max_bounds"]

/-- The call that led from `s` to `s1` wrote only the values named in `keys`:
every other value, every subconfig (the region collection among them), the
free-list, the handle and the ID are as before. -/
def SemanticAttributes.WroteOnlyValues (keys : List String)
    (s s1 : SemanticAttributes) : Prop :=
  SameExcept keys s.values s1.values ∧ s1.subconfigs = s.subconfigs ∧
    s1.regionChildren = s.regionChildren ∧
    s1.availableRegionInstIDs_ = s.availableRegionInstIDs_ ∧
    s1.handle = s.handle ∧ s1.ID = s.ID

/-- Every getter of `SemanticAttributes` whose key is not in `keys` returns the
same on `s1` as on `s`; the region collection is read through
`getRegionInstances` and `getNumRegionInstances`. -/
def SemanticAttributes.GettersAgreeExcept (keys : List String)
    (s s1 : SemanticAttributes) : Prop :=
  ("semantic_orient_up" ∉ keys → s1.getSemanticOrientUp = s.getSemanticOrientUp) ∧
    ("semantic_orient_front" ∉ keys →
      s1.getSemanticOrientFront = s.getSemanticOrientFront) ∧
    ("semantic_descriptor_filename" ∉ keys →
      s1.getSemanticDescriptorFilename = s.getSemanticDescriptorFilename) ∧
    ("semantic_asset" ∉ keys → s1.getSemanticAssetHandle = s.getSemanticAssetHandle) ∧
    ("semantic_asset_type" ∉ keys → s1.getSemanticAssetType = s.getSemanticAssetType) ∧
    ("has_semantic_textures" ∉ keys →
      s1.getHasSemanticTextures = s.getHasSemanticTextures) ∧
    ("use_semantic_frame" ∉ keys →
      s1.getUseSpecifiedSemanticFrame = s.getUseSpecifiedSemanticFrame) ∧
    ("region_annotations" ∉ keys →
      s1.getRegionInstances = s.getRegionInstances ∧
        s1.getNumRegionInstances = s.getNumRegionInstances)

/-- The value setters of `SemanticAttributes` (l. 148-224), each with its
argument. -/
inductive SemanticAttributes.Setter where
  | setSemanticOrientUp (v : Vector3)
  | setSemanticOrientFront (v : Vector3)
  | setSemanticDescriptorFilename (name : String)
  | setSemanticAssetHandle (name : String)
  | setSemanticAssetType (t : Int)
  | setHasSemanticTextures (b : Bool)
deriving DecidableEq, Repr

/-- One call of a value setter of `SemanticAttributes`. -/
def SemanticAttributes.Setter.apply :
    SemanticAttributes.Setter → SemanticAttributes → Except ConfigError SemanticAttributes
  | .setSemanticOrientUp v, s => s.setSemanticOrientUp v
  | .setSemanticOrientFront v, s => s.setSemanticOrientFront v
  | .setSemanticDescriptorFilename n, s => s.setSemanticDescriptorFilename n
  | .setSemanticAssetHandle n, s => s.setSemanticAssetHandle n
  | .setSemanticAssetType t, s => s.setSemanticAssetType t
  | .setHasSemanticTextures b, s => s.setHasSemanticTextures b

/-- The keys a value setter of `SemanticAttributes` passes to `set`. -/
def SemanticAttributes.Setter.keys : SemanticAttributes.Setter → List String
  | .setSemanticOrientUp _ => ["semantic_orient_up", "use_semantic_frame"]
  | .setSemanticOrientFront _ => ["semantic_orient_front", "use_semantic_frame"]
  | .setSemanticDescriptorFilename _ => ["semantic_descriptor_filename"]
  | .setSemanticAssetHandle _ => ["semantic_asset"]
  | .setSemanticAssetType _ => ["semantic_asset_type"]
  | .setHasSemanticTextures _ => ["has_semantic_textures"]

/-- The IDs of the live children of `region_annotations`, in the order of the
mapping. -/
def SemanticAttributes.regionIDs (s : SemanticAttributes) : List Int :=
  s.regionChildren.map (fun p => p.2.ID)

/-- The synthesized names of the live children of `region_annotations`, in the
order of the mapping. -/
def SemanticAttributes.regionKeys (s : SemanticAttributes) : List String :=
  s.regionChildren.map Prod.fst

/-- The shape of the region collection in every state built from a fresh
object by adds and clears: no ID is released, and the children carry the IDs
`0, 1, ..., n - 1` in this order, each under the name synthesized from its
ID. -/
def SemanticAttributes.RegionInv (s : SemanticAttributes) : Prop :=
  s.availableRegionInstIDs_ = [] ∧
    s.regionChildren.map (fun p => (p.1, p.2.ID)) =
      (List.range s.regionChildren.length).map
        (fun (i : Nat) => (subAttrKey "region_desc_" (i : Int), (i : Int)))

/-- The entries of an indexed sub-collection holding the values `vals`, the
first of them at index `i`: one entry per value, named by its index. -/
def indexedEntries : Nat → List Value → List (String × Value)
  | _, [] => []
  | i, v :: rest => (Configuration.indexKey i, v) :: indexedEntries (i + 1) rest

/-- Value of a decimal digit character. -/
def digitValue (c : Char) : Nat := c.toNat - 48

/-- Value of a string of decimal digits, most significant first, read after
the number `start`. -/
def decimalValue (ds : List Char) (start : Nat) : Nat :=
  ds.foldl (fun a c => 10 * a + digitValue c) start

/-! ## Concrete inputs -/

/-- A region with no value and no polygon yet, used as a concrete input. -/
def exampleRegion (handle : String) : SemanticVolumeAttributes :=
  { values := [], subconfigs := [], handle := handle, ID := 0 }

/-- A concrete 3-vector, used as a concrete input. -/
def exampleVector (a b c : Nat) : Vector3 :=
  { x := ⟨a⟩, y := ⟨b⟩, z := ⟨c⟩ }

/-- A scene whose flag `use_semantic_frame` is already true, used as a concrete
input. -/
def flaggedScene : SemanticAttributes :=
  { SemanticAttributes.create "scene" with values := [("use_semantic_frame", .bool true)] }

/-- A region with two heights set, used as a concrete input. -/
def exampleVolume : SemanticVolumeAttributes :=
  { exampleRegion "kitchen" with
    values := [("floor_height", .double ⟨1⟩), ("extrusion_height", .double ⟨3⟩)] }

/-- A scene with one live region, of ID 1, and the released ID 0 in the
free-list, used as a concrete input. -/
def releasedScene : SemanticAttributes :=
  { SemanticAttributes.create "scene" with
    subconfigs := [("region_annotations",
      { values := []
        subconfigs := [("region_desc_1", { exampleRegion "hall" with ID := 1 })] })]
    availableRegionInstIDs_ := [0] }

/-- A scene whose regions were stored in the ID order 2, 0, 1, used as a
concrete input. -/
def shuffledScene : SemanticAttributes :=
  { SemanticAttributes.create "scene" with
    subconfigs := [("region_annotations",
      { values := []
        subconfigs := [("region_desc_2", { exampleRegion "attic" with ID := 2 }),
          ("region_desc_0", { exampleRegion "hall" with ID := 0 }),
          ("region_desc_1", { exampleRegion "kitchen" with ID := 1 })] })] }

/-- The scene after eleven adds on a fresh scene, used as a concrete input. -/
def elevenRegions : SemanticAttributes :=
  match SemanticAttributes.runRegionCalls (SemanticAttributes.create "scene")
      (List.replicate 11 (.add (exampleRegion "room"))) with
  | .ok s => s
  | .error _ => SemanticAttributes.create "scene"

/-- A region that already holds a loop of three points, used as a concrete
input. -/
def loopedRegion : SemanticVolumeAttributes :=
  { exampleRegion "hall" with
    subconfigs := [("poly_loop",
      { values := [("0", .vec3 (exampleVector 0 0 0)), ("1", .vec3 (exampleVector 1 0 0)),
          ("2", .vec3 (exampleVector 1 0 1))]
        subconfigs := [] })] }

/-! ## Lemmas on insertion-ordered mappings -/

theorem assocFind_upsert_self {β : Type} (l : List (String × β)) (k : String) (v : β) :
    assocFind (assocUpsert l k v) k = some v := by
  induction l with
  | nil => simp [assocUpsert, assocFind]
  | cons p rest ih =>
    obtain ⟨k1, w⟩ := p
    by_cases h : k1 = k
    · simp [assocUpsert, assocFind, h]
    · simp [assocUpsert, assocFind, h, ih]

theorem assocFind_upsert_ne {β : Type} (l : List (String × β)) (k k2 : String) (v : β)
    (hne : k2 ≠ k) : assocFind (assocUpsert l k v) k2 = assocFind l k2 := by
  induction l with
  | nil =>
    have : ¬ k = k2 := fun h => hne h.symm
    simp [assocUpsert, assocFind, this]
  | cons p rest ih =>
    obtain ⟨k1, w⟩ := p
    by_cases h : k1 = k
    · subst h
      have : ¬ k1 = k2 := fun h => hne h.symm
      simp [assocUpsert, assocFind, this]
    · by_cases h2 : k1 = k2
      · subst h2
        simp [assocUpsert, assocFind, h]
      · simp [assocUpsert, assocFind, h, h2, ih]

theorem assocFind_erase_self {β : Type} (l : List (String × β)) (k : String) :
    assocFind (assocErase l k) k = none := by
  induction l with
  | nil => simp [assocErase, assocFind]
  | cons p rest ih =>
    obtain ⟨k1, w⟩ := p
    by_cases h : k1 = k
    · simp [assocErase, h, ih]
    · simp [assocErase, assocFind, h, ih]

namespace Configuration

variable {Sub : Type}

theorem set_eq_ok (c c1 : Configuration Sub) (name : String) (v : Value)
    (h : c.set name v = .ok c1) :
    c.hasSubconfig name = false ∧
      c1 = { c with values := assocUpsert c.values name v } := by
  unfold set at h
  by_cases hs : c.hasSubconfig name = true
  · simp [hs] at h
  · simp only [hs] at h
    simp only [Bool.false_eq_true, ↓reduceIte, Except.ok.injEq] at h
    exact ⟨by simpa using hs, h.symm⟩

theorem set_ok_of_valid (c : Configuration Sub) (name : String) (v : Value)
    (h : c.hasSubconfig name = false) :
    c.set name v = .ok { c with values := assocUpsert c.values name v } := by
  simp [set, h]

end Configuration

namespace SemanticVolumeAttributes

theorem volume_withConfig_set_ok (s s1 : SemanticVolumeAttributes) (name : String) (v : Value)
    (h : s.withConfig (s.toConfiguration.set name v) = .ok s1) :
    s.toConfiguration.hasSubconfig name = false ∧
      s1 = { s with values := assocUpsert s.values name v } := by
  unfold withConfig at h
  split at h
  · rename_i c hc
    obtain ⟨hv, rfl⟩ := Configuration.set_eq_ok _ _ _ _ hc
    simp only [Except.ok.injEq] at h
    exact ⟨hv, h.symm⟩
  · simp at h

theorem volume_withConfig_set_valid (s : SemanticVolumeAttributes) (name : String) (v : Value)
    (h : s.toConfiguration.hasSubconfig name = false) :
    s.withConfig (s.toConfiguration.set name v) =
      .ok { s with values := assocUpsert s.values name v } := by
  rw [Configuration.set_ok_of_valid _ _ _ h]
  rfl

theorem volume_roundTrip_of_key {T : Type} (name : String) (inj : T → Value)
    (as : Value → Option T) (has : ∀ t, as (inj t) = some t) :
    RoundTrip (fun (s : SemanticVolumeAttributes) (v : T) =>
        s.withConfig (s.toConfiguration.set name (inj v)))
      (fun s => s.toConfiguration.get name as)
      (fun s => ValidName s.toConfiguration name) := by
  intro s v
  refine ⟨fun s1 h => ?_, fun hv => ⟨_, volume_withConfig_set_valid s name (inj v) hv⟩⟩
  obtain ⟨_, rfl⟩ := volume_withConfig_set_ok s s1 name (inj v) h
  simp [Configuration.get, assocFind_upsert_self, has]

theorem volume_wroteOnly_of_set (s s1 : SemanticVolumeAttributes) (name : String) (v : Value)
    (h : s.withConfig (s.toConfiguration.set name v) = .ok s1) :
    WroteOnlyValues [name] s s1 := by
  obtain ⟨_, rfl⟩ := volume_withConfig_set_ok s s1 name v h
  refine ⟨fun k hk => ?_, rfl, rfl, rfl⟩
  exact assocFind_upsert_ne _ _ _ _ (by simpa using hk)

end SemanticVolumeAttributes

namespace SemanticAttributes

theorem scene_withConfig_set_ok (s s1 : SemanticAttributes) (name : String) (v : Value)
    (h : s.withConfig (s.toConfiguration.set name v) = .ok s1) :
    s.toConfiguration.hasSubconfig name = false ∧
      s1 = { s with values := assocUpsert s.values name v } := by
  unfold withConfig at h
  split at h
  · rename_i c hc
    obtain ⟨hv, rfl⟩ := Configuration.set_eq_ok _ _ _ _ hc
    simp only [Except.ok.injEq] at h
    exact ⟨hv, h.symm⟩
  · simp at h

theorem scene_withConfig_set_valid (s : SemanticAttributes) (name : String) (v : Value)
    (h : s.toConfiguration.hasSubconfig name = false) :
    s.withConfig (s.toConfiguration.set name v) =
      .ok { s with values := assocUpsert s.values name v } := by
  rw [Configuration.set_ok_of_valid _ _ _ h]
  rfl

theorem scene_roundTrip_of_key {T : Type} (name : String) (inj : T → Value)
    (as : Value → Option T) (has : ∀ t, as (inj t) = some t) :
    RoundTrip (fun (s : SemanticAttributes) (v : T) =>
        s.withConfig (s.toConfiguration.set name (inj v)))
      (fun s => s.toConfiguration.get name as)
      (fun s => ValidName s.toConfiguration name) := by
  intro s v
  refine ⟨fun s1 h => ?_, fun hv => ⟨_, scene_withConfig_set_valid s name (inj v) hv⟩⟩
  obtain ⟨_, rfl⟩ := scene_withConfig_set_ok s s1 name (inj v) h
  simp [Configuration.get, assocFind_upsert_self, has]

theorem regionAnnotationConfig_eq (s : SemanticAttributes) :
    s.regionAnnotationConfig_ =
      (assocFind s.subconfigs "region_annotations").getD Configuration.empty := by
  unfold regionAnnotationConfig_ Configuration.editSubconfig
  cases assocFind s.subconfigs "region_annotations" <;> rfl

theorem regionChildren_congr (s s1 : SemanticAttributes)
    (h : s1.subconfigs = s.subconfigs) : s1.regionChildren = s.regionChildren := by
  simp [regionChildren, regionAnnotationConfig_eq, h]

theorem scene_wroteOnly_of_set (s s1 : SemanticAttributes) (name : String) (v : Value)
    (h : s.withConfig (s.toConfiguration.set name v) = .ok s1) :
    WroteOnlyValues [name] s s1 := by
  obtain ⟨_, rfl⟩ := scene_withConfig_set_ok s s1 name v h
  refine ⟨fun k hk => ?_, rfl, regionChildren_congr _ _ rfl, rfl, rfl, rfl⟩
  exact assocFind_upsert_ne _ _ _ _ (by simpa using hk)

/-- What a completed call of an orientation setter has done: both names were
free for a value, the vector was stored and the flag was stored as true. -/
theorem orient_set_ok (s s1 : SemanticAttributes) (name : String) (v : Vector3)
    (h : (match s.withConfig (s.toConfiguration.set name (.vec3 v)) with
          | .ok s2 => s2.setUseSpecifiedSemanticFrame true
          | .error e => .error e) = .ok s1) :
    s.toConfiguration.hasSubconfig name = false ∧
      s.toConfiguration.hasSubconfig "use_semantic_frame" = false ∧
      s1 = { s with values := (assocUpsert (assocUpsert s.values name (.vec3 v))
              "use_semantic_frame" (.bool true)) } := by
  split at h
  · rename_i s2 h2
    obtain ⟨hv, rfl⟩ := scene_withConfig_set_ok s s2 name _ h2
    obtain ⟨hv2, rfl⟩ := scene_withConfig_set_ok _ s1 _ _ h
    exact ⟨hv, hv2, rfl⟩
  · simp at h

theorem orient_set_valid (s : SemanticAttributes) (name : String) (v : Vector3)
    (h1 : s.toConfiguration.hasSubconfig name = false)
    (h2 : s.toConfiguration.hasSubconfig "use_semantic_frame" = false) :
    (match s.withConfig (s.toConfiguration.set name (.vec3 v)) with
      | .ok s2 => s2.setUseSpecifiedSemanticFrame true
      | .error e => .error e) =
      .ok { s with values := (assocUpsert (assocUpsert s.values name (.vec3 v))
              "use_semantic_frame" (.bool true)) } := by
  rw [scene_withConfig_set_valid s name _ h1]
  exact scene_withConfig_set_valid
    { s with values := assocUpsert s.values name (.vec3 v) } _ _ h2

end SemanticAttributes

namespace Configuration

theorem get_congr {Sub T : Type} (c c1 : Configuration Sub) (k : String)
    (as : Value → Option T) (h : assocFind c1.values k = assocFind c.values k) :
    c1.get k as = c.get k as := by
  simp [get, h]

end Configuration

/-! ## C8: accessor pairs -/

/-- C8: every accessor pair of `SemanticVolumeAttributes` (label, floor_height,
extrusion_height, min_bounds, max_bounds) and of `SemanticAttributes`
(semantic_descriptor_filename, semantic_asset, semantic_asset_type,
has_semantic_textures) is a set/get round trip on its key: after a completed
call of the setter with `v` the getter returns `v`, so it fails neither with
`KeyNotFound` nor with `TypeMismatch`; and the setter completes on every state
in which its key is free for a value. -/
theorem accessor_pairs_round_trip :
    RoundTrip SemanticVolumeAttributes.setLabel SemanticVolumeAttributes.getLabel
        (fun s => ValidName s.toConfiguration "label") ∧
      RoundTrip SemanticVolumeAttributes.setFloorHeight
        SemanticVolumeAttributes.getFloorHeight
        (fun s => ValidName s.toConfiguration "floor_height") ∧
      RoundTrip SemanticVolumeAttributes.setExtrusionHeight
        SemanticVolumeAttributes.getExtrusionHeight
        (fun s => ValidName s.toConfiguration "extrusion_height") ∧
      RoundTrip SemanticVolumeAttributes.setMinBounds SemanticVolumeAttributes.getMinBounds
        (fun s => ValidName s.toConfiguration "min_bounds") ∧
      RoundTrip SemanticVolumeAttributes.setMaxBounds SemanticVolumeAttributes.getMaxBounds
        (fun s => ValidName s.toConfiguration "max_bounds") ∧
      RoundTrip SemanticAttributes.setSemanticDescriptorFilename
        SemanticAttributes.getSemanticDescriptorFilename
        (fun s => ValidName s.toConfiguration "semantic_descriptor_filename") ∧
      RoundTrip SemanticAttributes.setSemanticAssetHandle
        SemanticAttributes.getSemanticAssetHandle
        (fun s => ValidName s.toConfiguration "semantic_asset") ∧
      RoundTrip SemanticAttributes.setSemanticAssetType
        SemanticAttributes.getSemanticAssetType
        (fun s => ValidName s.toConfiguration "semantic_asset_type") ∧
      RoundTrip SemanticAttributes.setHasSemanticTextures
        SemanticAttributes.getHasSemanticTextures
        (fun s => ValidName s.toConfiguration "has_semantic_textures") :=
  ⟨SemanticVolumeAttributes.volume_roundTrip_of_key "label" Value.string Value.asString
      (fun _ => rfl),
    SemanticVolumeAttributes.volume_roundTrip_of_key "floor_height" Value.double Value.asDouble
      (fun _ => rfl),
    SemanticVolumeAttributes.volume_roundTrip_of_key "extrusion_height" Value.double Value.asDouble
      (fun _ => rfl),
    SemanticVolumeAttributes.volume_roundTrip_of_key "min_bounds" Value.vec3 Value.asVec3
      (fun _ => rfl),
    SemanticVolumeAttributes.volume_roundTrip_of_key "max_bounds" Value.vec3 Value.asVec3
      (fun _ => rfl),
    SemanticAttributes.scene_roundTrip_of_key "semantic_descriptor_filename" Value.string
      Value.asString (fun _ => rfl),
    SemanticAttributes.scene_roundTrip_of_key "semantic_asset" Value.string Value.asString
      (fun _ => rfl),
    SemanticAttributes.scene_roundTrip_of_key "semantic_asset_type" Value.int Value.asInt
      (fun _ => rfl),
    SemanticAttributes.scene_roundTrip_of_key "has_semantic_textures" Value.bool Value.asBool
      (fun _ => rfl)⟩

/-- The round trip of C8 at concrete inputs: a floor height written over an
entry of another type, and an asset type written to a fresh scene. -/
theorem accessor_pairs_round_trip_witness :
    (∃ s1, SemanticVolumeAttributes.setFloorHeight
          { exampleRegion "kitchen" with values := [("floor_height", .string "low")] }
          ⟨7⟩ = .ok s1 ∧
        s1.getFloorHeight = .ok ⟨7⟩) ∧
      (∃ s1, (SemanticAttributes.create "scene").setSemanticAssetType 4 = .ok s1 ∧
        s1.getSemanticAssetType = .ok 4) :=
  ⟨match (accessor_pairs_round_trip.2.1
        { exampleRegion "kitchen" with values := [("floor_height", .string "low")] }
        ⟨7⟩).2 (by decide) with
    | ⟨s1, h⟩ => ⟨s1, h, (accessor_pairs_round_trip.2.1 _ _).1 s1 h⟩,
    match (accessor_pairs_round_trip.2.2.2.2.2.2.2.1
        (SemanticAttributes.create "scene") 4).2 (by decide) with
    | ⟨s1, h⟩ => ⟨s1, h, (accessor_pairs_round_trip.2.2.2.2.2.2.2.1 _ _).1 s1 h⟩⟩

/-! ## C1: the orientation setters -/

/-- C1: after a completed call of `setSemanticOrientUp(v)` or of
`setSemanticOrientFront(v)`, whatever the state before (in particular with the
flag false), `getUseSpecifiedSemanticFrame()` returns true and the
corresponding getter returns `v`; and the call completes on every state in
which the two keys it writes are free for a value. -/
theorem orientation_setters_raise_flag (s : SemanticAttributes) (v : Vector3) :
    (∀ s1, s.setSemanticOrientUp v = .ok s1 →
        s1.getUseSpecifiedSemanticFrame = .ok true ∧ s1.getSemanticOrientUp = .ok v) ∧
      (∀ s1, s.setSemanticOrientFront v = .ok s1 →
        s1.getUseSpecifiedSemanticFrame = .ok true ∧ s1.getSemanticOrientFront = .ok v) ∧
      (ValidName s.toConfiguration "semantic_orient_up" →
        ValidName s.toConfiguration "use_semantic_frame" →
        ∃ s1, s.setSemanticOrientUp v = .ok s1) ∧
      (ValidName s.toConfiguration "semantic_orient_front" →
        ValidName s.toConfiguration "use_semantic_frame" →
        ∃ s1, s.setSemanticOrientFront v = .ok s1) := by
  refine ⟨fun s1 h => ?_, fun s1 h => ?_, fun h1 h2 => ?_, fun h1 h2 => ?_⟩
  · obtain ⟨_, _, rfl⟩ := SemanticAttributes.orient_set_ok s s1 _ v h
    constructor
    · simp [SemanticAttributes.getUseSpecifiedSemanticFrame, Configuration.get,
        assocFind_upsert_self, Value.asBool]
    · have hne : "semantic_orient_up" ≠ "use_semantic_frame" := by decide
      simp [SemanticAttributes.getSemanticOrientUp, Configuration.get,
        assocFind_upsert_ne _ _ _ _ hne, assocFind_upsert_self, Value.asVec3]
  · obtain ⟨_, _, rfl⟩ := SemanticAttributes.orient_set_ok s s1 _ v h
    constructor
    · simp [SemanticAttributes.getUseSpecifiedSemanticFrame, Configuration.get,
        assocFind_upsert_self, Value.asBool]
    · have hne : "semantic_orient_front" ≠ "use_semantic_frame" := by decide
      simp [SemanticAttributes.getSemanticOrientFront, Configuration.get,
        assocFind_upsert_ne _ _ _ _ hne, assocFind_upsert_self, Value.asVec3]
  · exact ⟨_, SemanticAttributes.orient_set_valid s _ v h1 h2⟩
  · exact ⟨_, SemanticAttributes.orient_set_valid s _ v h1 h2⟩

/-- C1 at a freshly constructed scene, whose flag is false: the call of
`setSemanticOrientUp` completes, the flag is true after it and the vector is
read back. -/
theorem orientation_setters_raise_flag_witness :
    (SemanticAttributes.create "scene").getUseSpecifiedSemanticFrame = .ok false ∧
      ∃ s1, (SemanticAttributes.create "scene").setSemanticOrientUp (exampleVector 0 1 0)
          = .ok s1 ∧
        s1.getUseSpecifiedSemanticFrame = .ok true ∧
        s1.getSemanticOrientUp = .ok (exampleVector 0 1 0) :=
  ⟨by decide,
    match (orientation_setters_raise_flag (SemanticAttributes.create "scene")
        (exampleVector 0 1 0)).2.2.1 (by decide) (by decide) with
    | ⟨s1, h⟩ => ⟨s1, h, (orientation_setters_raise_flag _ _).1 s1 h⟩⟩

/-! ## The region collection: what the calls do -/

theorem assocFind_eq_none_iff {β : Type} (l : List (String × β)) (k : String) :
    assocFind l k = none ↔ k ∉ l.map Prod.fst := by
  induction l with
  | nil => simp [assocFind]
  | cons p rest ih =>
    obtain ⟨k1, w⟩ := p
    by_cases h : k1 = k
    · simp [assocFind, h]
    · have h2 : ¬ k = k1 := fun e => h e.symm
      simp [assocFind, h, h2, ih]

namespace SemanticAttributes

theorem regionChildren_putSubconfig (s : SemanticAttributes)
    (cfg : Configuration SemanticVolumeAttributes) (ids : List Int) :
    regionChildren { s with
        toConfiguration := s.toConfiguration.putSubconfig "region_annotations" cfg
        availableRegionInstIDs_ := ids } = cfg.subconfigs := by
  simp [regionChildren, regionAnnotationConfig_eq, Configuration.putSubconfig,
    assocFind_upsert_self]

/-- What a completed call of `addRegionInstanceAttrs` has done. -/
theorem addRegionInstanceAttrs_ok (s s1 : SemanticAttributes)
    (inst : SemanticVolumeAttributes) (h : s.addRegionInstanceAttrs inst = .ok s1) :
    ∃ (id : Int) (rest : List Int),
      ((s.availableRegionInstIDs_ = id :: rest) ∨
        (s.availableRegionInstIDs_ = [] ∧ id = (s.getNumRegionInstances : Int) ∧ rest = [])) ∧
      subAttrKey "region_desc_" id ∉ s.regionChildren.map Prod.fst ∧
      s1.regionChildren =
        s.regionChildren ++ [(subAttrKey "region_desc_" id, { inst with ID := id })] ∧
      s1.availableRegionInstIDs_ = rest ∧ s1.values = s.values ∧
      s1.handle = s.handle ∧ s1.ID = s.ID := by
  unfold addRegionInstanceAttrs setSubAttributesInternal at h
  cases hq : s.availableRegionInstIDs_ with
  | nil =>
    simp only [hq] at h
    refine ⟨(s.regionAnnotationConfig_.getNumSubconfigs : Int), [], Or.inr ⟨rfl, rfl, rfl⟩, ?_⟩
    split at h
    · rename_i cfg ids hc
      split at hc
      · simp at hc
      · rename_i hk
        simp only [Except.ok.injEq, Prod.mk.injEq] at hc h
        obtain ⟨rfl, rfl⟩ := hc
        subst h
        refine ⟨?_, ?_, rfl, rfl, rfl, rfl⟩
        · rw [← assocFind_eq_none_iff]
          simpa [Configuration.hasSubconfig] using hk
        · rw [regionChildren_putSubconfig]
          rfl
    · simp at h
  | cons front others =>
    simp only [hq] at h
    refine ⟨front, others, Or.inl rfl, ?_⟩
    split at h
    · rename_i cfg ids hc
      split at hc
      · simp at hc
      · rename_i hk
        simp only [Except.ok.injEq, Prod.mk.injEq] at hc h
        obtain ⟨rfl, rfl⟩ := hc
        subst h
        refine ⟨?_, ?_, rfl, rfl, rfl, rfl⟩
        · rw [← assocFind_eq_none_iff]
          simpa [Configuration.hasSubconfig] using hk
        · rw [regionChildren_putSubconfig]
          rfl
    · simp at h

/-- The call of `addRegionInstanceAttrs` completes when the synthesized name of
the ID it picks is not in use. -/
theorem addRegionInstanceAttrs_complete (s : SemanticAttributes)
    (inst : SemanticVolumeAttributes) (id : Int) (rest : List Int)
    (hid : (s.availableRegionInstIDs_ = id :: rest) ∨
        (s.availableRegionInstIDs_ = [] ∧ id = (s.getNumRegionInstances : Int) ∧ rest = []))
    (hfree : subAttrKey "region_desc_" id ∉ s.regionChildren.map Prod.fst) :
    ∃ s1, s.addRegionInstanceAttrs inst = .ok s1 := by
  rw [← assocFind_eq_none_iff] at hfree
  have hk : s.regionAnnotationConfig_.hasSubconfig (subAttrKey "region_desc_" id) = false := by
    simp [Configuration.hasSubconfig, regionChildren] at hfree ⊢
    exact hfree
  unfold addRegionInstanceAttrs setSubAttributesInternal
  rcases hid with hq | ⟨hq, rfl, rfl⟩
  · simp only [hq, hk]
    exact ⟨_, rfl⟩
  · simp only [hq]
    simp only [getNumRegionInstances, getNumSubAttributesInternal] at hk
    simp only [hk]
    exact ⟨_, rfl⟩

/-- What `clearRegionInstances` does: the child `region_annotations` is there
and empty, everything else is as before. -/
theorem clearRegionInstances_spec (s : SemanticAttributes) :
    assocFind s.clearRegionInstances.subconfigs "region_annotations"
        = some Configuration.empty ∧
      s.clearRegionInstances.regionChildren = [] ∧
      s.clearRegionInstances.availableRegionInstIDs_ = s.availableRegionInstIDs_ ∧
      s.clearRegionInstances.values = s.values ∧
      s.clearRegionInstances.handle = s.handle ∧ s.clearRegionInstances.ID = s.ID := by
  have hsub : s.clearRegionInstances.subconfigs =
      assocUpsert (assocErase s.subconfigs "region_annotations") "region_annotations"
        Configuration.empty := by
    simp [clearRegionInstances, Configuration.removeSubconfig, Configuration.editSubconfig,
      assocFind_erase_self]
  refine ⟨?_, ?_, rfl, ?_, rfl, rfl⟩
  · rw [hsub, assocFind_upsert_self]
  · simp [regionChildren, regionAnnotationConfig_eq, hsub, assocFind_upsert_self,
      Configuration.empty]
  · simp [clearRegionInstances, Configuration.removeSubconfig, Configuration.editSubconfig,
      assocFind_erase_self]

end SemanticAttributes

/-! ## Frame lemmas -/

namespace Configuration

theorem setSubconfigVals_frame {S : Type} (c c1 : Configuration (Configuration S))
    (name : String) (vals : List Value)
    (h : c.setSubconfigValsOfTypeInVector name vals = .ok c1) :
    c1.values = c.values ∧ SameExcept [name] c.subconfigs c1.subconfigs := by
  unfold setSubconfigValsOfTypeInVector editSubconfig at h
  cases hf : assocFind c.subconfigs name with
  | none =>
    simp only [hf] at h
    split at h
    · simp only [Except.ok.injEq] at h
      subst h
      refine ⟨rfl, fun k hk => ?_⟩
      have hne : k ≠ name := by simpa using hk
      simp [putSubconfig, assocFind_upsert_ne _ _ _ _ hne]
    · simp at h
  | some child =>
    simp only [hf] at h
    split at h
    · simp only [Except.ok.injEq] at h
      subst h
      refine ⟨rfl, fun k hk => ?_⟩
      have hne : k ≠ name := by simpa using hk
      simp [putSubconfig, assocFind_upsert_ne _ _ _ _ hne]
    · simp at h

end Configuration

namespace SemanticVolumeAttributes

theorem volume_gettersAgree_of_wroteOnlyValues (keys : List String)
    (s s1 : SemanticVolumeAttributes) (h : WroteOnlyValues keys s s1) :
    GettersAgreeExcept keys s s1 := by
  obtain ⟨hv, hs, _, _⟩ := h
  refine ⟨fun hk => ?_, fun hk => ?_, fun hk => ?_, fun hk => ?_, fun hk => ?_, fun _ => ?_⟩
  · exact Configuration.get_congr _ _ _ _ (hv _ hk)
  · exact Configuration.get_congr _ _ _ _ (hv _ hk)
  · exact Configuration.get_congr _ _ _ _ (hv _ hk)
  · exact Configuration.get_congr _ _ _ _ (hv _ hk)
  · exact Configuration.get_congr _ _ _ _ (hv _ hk)
  · simp [getPolyLoop, Configuration.getSubconfigValsOfTypeInVector, hs]

theorem gettersAgree_of_wroteOnlySubconfigs (s s1 : SemanticVolumeAttributes)
    (h : WroteOnlySubconfigs ["poly_loop"] s s1) :
    GettersAgreeExcept ["poly_loop"] s s1 := by
  obtain ⟨hv, _, _, _⟩ := h
  refine ⟨fun _ => ?_, fun _ => ?_, fun _ => ?_, fun _ => ?_, fun _ => ?_, fun hk => ?_⟩
  · exact Configuration.get_congr _ _ _ _ (by rw [hv])
  · exact Configuration.get_congr _ _ _ _ (by rw [hv])
  · exact Configuration.get_congr _ _ _ _ (by rw [hv])
  · exact Configuration.get_congr _ _ _ _ (by rw [hv])
  · exact Configuration.get_congr _ _ _ _ (by rw [hv])
  · exact absurd (List.mem_singleton.mpr rfl) hk

theorem volume_setter_wroteOnly (m : Setter) (s s1 : SemanticVolumeAttributes)
    (h : m.apply s = .ok s1) : WroteOnlyValues m.keys s s1 := by
  cases m <;> exact volume_wroteOnly_of_set s s1 _ _ h

theorem setPolyLoop_wroteOnly (s s1 : SemanticVolumeAttributes) (pts : List Vector3)
    (h : s.setPolyLoop pts = .ok s1) : WroteOnlySubconfigs ["poly_loop"] s s1 := by
  unfold setPolyLoop withConfig at h
  split at h
  · rename_i c hc
    simp only [Except.ok.injEq] at h
    subst h
    obtain ⟨hv, hs⟩ := Configuration.setSubconfigVals_frame _ _ _ _ hc
    exact ⟨hv, hs, rfl, rfl⟩
  · simp at h

end SemanticVolumeAttributes

namespace SemanticAttributes

theorem scene_gettersAgree_of_wroteOnlyValues (keys : List String)
    (s s1 : SemanticAttributes) (h : WroteOnlyValues keys s s1) :
    GettersAgreeExcept keys s s1 := by
  obtain ⟨hv, hs, hr, _, _, _⟩ := h
  refine ⟨fun hk => ?_, fun hk => ?_, fun hk => ?_, fun hk => ?_, fun hk => ?_,
    fun hk => ?_, fun hk => ?_, fun _ => ?_⟩
  · exact Configuration.get_congr _ _ _ _ (hv _ hk)
  · exact Configuration.get_congr _ _ _ _ (hv _ hk)
  · exact Configuration.get_congr _ _ _ _ (hv _ hk)
  · exact Configuration.get_congr _ _ _ _ (hv _ hk)
  · exact Configuration.get_congr _ _ _ _ (hv _ hk)
  · exact Configuration.get_congr _ _ _ _ (hv _ hk)
  · exact Configuration.get_congr _ _ _ _ (hv _ hk)
  · simp [getRegionInstances, getNumRegionInstances, regionAnnotationConfig_eq, hs]

/-- What a completed call of an orientation setter leaves unchanged. -/
theorem orient_wroteOnly (s s1 : SemanticAttributes) (name : String) (v : Vector3)
    (h : (match s.withConfig (s.toConfiguration.set name (.vec3 v)) with
          | .ok s2 => s2.setUseSpecifiedSemanticFrame true
          | .error e => .error e) = .ok s1) :
    WroteOnlyValues [name, "use_semantic_frame"] s s1 := by
  obtain ⟨_, _, rfl⟩ := orient_set_ok s s1 name v h
  refine ⟨fun k hk => ?_, rfl, regionChildren_congr _ _ rfl, rfl, rfl, rfl⟩
  have h1 : k ≠ name := fun e => hk (by simp [e])
  have h2 : k ≠ "use_semantic_frame" := fun e => hk (by simp [e])
  show assocFind (assocUpsert (assocUpsert s.values name _) "use_semantic_frame" _) k = _
  rw [assocFind_upsert_ne _ _ _ _ h2, assocFind_upsert_ne _ _ _ _ h1]

/-- The flag after a completed call of an orientation setter. -/
theorem orient_flag (s s1 : SemanticAttributes) (name : String) (v : Vector3)
    (h : (match s.withConfig (s.toConfiguration.set name (.vec3 v)) with
          | .ok s2 => s2.setUseSpecifiedSemanticFrame true
          | .error e => .error e) = .ok s1) :
    s1.getUseSpecifiedSemanticFrame = .ok true := by
  obtain ⟨_, _, rfl⟩ := orient_set_ok s s1 name v h
  simp [getUseSpecifiedSemanticFrame, Configuration.get, assocFind_upsert_self, Value.asBool]

theorem scene_setter_wroteOnly (m : Setter) (s s1 : SemanticAttributes)
    (h : m.apply s = .ok s1) : WroteOnlyValues m.keys s s1 := by
  cases m with
  | setSemanticOrientUp v => exact orient_wroteOnly s s1 _ v h
  | setSemanticOrientFront v => exact orient_wroteOnly s s1 _ v h
  | setSemanticDescriptorFilename n => exact scene_wroteOnly_of_set s s1 _ _ h
  | setSemanticAssetHandle n => exact scene_wroteOnly_of_set s s1 _ _ h
  | setSemanticAssetType t => exact scene_wroteOnly_of_set s s1 _ _ h
  | setHasSemanticTextures b => exact scene_wroteOnly_of_set s s1 _ _ h

end SemanticAttributes

/-! ## C2: the flag is a latch -/

/-- C2: the flag `use_semantic_frame` is a one-way latch: in every state in
which `getUseSpecifiedSemanticFrame()` returns true, after a completed call of
any public mutator of `SemanticAttributes`, with any arguments, it still
returns true; no public mutator stores false under `use_semantic_frame`. -/
theorem use_semantic_frame_is_latch (s s1 : SemanticAttributes)
    (m : SemanticAttributes.Mutator)
    (hflag : s.getUseSpecifiedSemanticFrame = .ok true) (hcall : m.apply s = .ok s1) :
    s1.getUseSpecifiedSemanticFrame = .ok true := by
  have keep : ∀ name : String, name ≠ "use_semantic_frame" →
      SemanticAttributes.WroteOnlyValues [name] s s1 →
      s1.getUseSpecifiedSemanticFrame = .ok true := by
    intro name hne hw
    rw [← hflag]
    exact Configuration.get_congr _ _ _ _
      (hw.1 "use_semantic_frame" (by simpa using fun e => hne e.symm))
  cases m with
  | setSemanticOrientUp v => exact SemanticAttributes.orient_flag s s1 _ v hcall
  | setSemanticOrientFront v => exact SemanticAttributes.orient_flag s s1 _ v hcall
  | setSemanticDescriptorFilename n =>
    exact keep _ (by decide) (SemanticAttributes.scene_wroteOnly_of_set s s1 _ _ hcall)
  | setSemanticAssetHandle n =>
    exact keep _ (by decide) (SemanticAttributes.scene_wroteOnly_of_set s s1 _ _ hcall)
  | setSemanticAssetType t =>
    exact keep _ (by decide) (SemanticAttributes.scene_wroteOnly_of_set s s1 _ _ hcall)
  | setHasSemanticTextures b =>
    exact keep _ (by decide) (SemanticAttributes.scene_wroteOnly_of_set s s1 _ _ hcall)
  | addRegionInstanceAttrs inst =>
    obtain ⟨_, _, _, _, _, _, hv, _⟩ :=
      SemanticAttributes.addRegionInstanceAttrs_ok s s1 inst hcall
    rw [← hflag]
    exact Configuration.get_congr _ _ _ _ (by rw [hv])
  | clearRegionInstances =>
    simp only [SemanticAttributes.Mutator.apply, Except.ok.injEq] at hcall
    subst hcall
    rw [← hflag]
    exact Configuration.get_congr _ _ _ _
      (by rw [(SemanticAttributes.clearRegionInstances_spec s).2.2.2.1])

/-- C2 at a scene whose flag is true: a setter that stores false under another
boolean key completes and leaves the flag true. -/
theorem use_semantic_frame_is_latch_witness :
    flaggedScene.getUseSpecifiedSemanticFrame = .ok true ∧
      (SemanticAttributes.Mutator.setHasSemanticTextures false).apply flaggedScene =
        .ok { flaggedScene with
              values := [("use_semantic_frame", .bool true),
                ("has_semantic_textures", .bool false)] } ∧
      SemanticAttributes.getUseSpecifiedSemanticFrame
        { flaggedScene with
          values := [("use_semantic_frame", .bool true),
            ("has_semantic_textures", .bool false)] } = .ok true :=
  ⟨by decide, by decide,
    use_semantic_frame_is_latch flaggedScene _
      (SemanticAttributes.Mutator.setHasSemanticTextures false) (by decide) (by decide)⟩

/-! ## C10: each setter writes only its own keys -/

/-- C10: a completed call of a value setter of `SemanticVolumeAttributes` or of
`SemanticAttributes` writes only the values under its own keys (for the
orientation setters: the vector and `use_semantic_frame`): every other value,
every subconfig, the region collection and the free-list are unchanged, and
every other getter returns what it returned before.  A completed call of
`setPolyLoop` writes only the subconfig `poly_loop`. -/
theorem setters_write_only_their_keys
    (sv sv1 sv2 : SemanticVolumeAttributes) (m : SemanticVolumeAttributes.Setter)
    (pts : List Vector3) (sa sa1 : SemanticAttributes) (n : SemanticAttributes.Setter)
    (hm : m.apply sv = .ok sv1) (hp : sv.setPolyLoop pts = .ok sv2)
    (hn : n.apply sa = .ok sa1) :
    (SemanticVolumeAttributes.WroteOnlyValues m.keys sv sv1 ∧
        SemanticVolumeAttributes.GettersAgreeExcept m.keys sv sv1) ∧
      (SemanticVolumeAttributes.WroteOnlySubconfigs ["poly_loop"] sv sv2 ∧
        SemanticVolumeAttributes.GettersAgreeExcept ["poly_loop"] sv sv2) ∧
      (SemanticAttributes.WroteOnlyValues n.keys sa sa1 ∧
        SemanticAttributes.GettersAgreeExcept n.keys sa sa1) :=
  ⟨⟨SemanticVolumeAttributes.volume_setter_wroteOnly m sv sv1 hm,
      SemanticVolumeAttributes.volume_gettersAgree_of_wroteOnlyValues _ _ _
        (SemanticVolumeAttributes.volume_setter_wroteOnly m sv sv1 hm)⟩,
    ⟨SemanticVolumeAttributes.setPolyLoop_wroteOnly sv sv2 pts hp,
      SemanticVolumeAttributes.gettersAgree_of_wroteOnlySubconfigs _ _
        (SemanticVolumeAttributes.setPolyLoop_wroteOnly sv sv2 pts hp)⟩,
    ⟨SemanticAttributes.scene_setter_wroteOnly n sa sa1 hn,
      SemanticAttributes.scene_gettersAgree_of_wroteOnlyValues _ _ _
        (SemanticAttributes.scene_setter_wroteOnly n sa sa1 hn)⟩⟩

/-- C10 at concrete inputs: `setFloorHeight` on a region with two heights,
`setPolyLoop` on the same region, and `setSemanticOrientUp` on a fresh scene;
each call completes and the other getters and the region collection are
unchanged. -/
theorem setters_write_only_their_keys_witness :
    (SemanticVolumeAttributes.Setter.setFloorHeight ⟨2⟩).apply exampleVolume =
        .ok { exampleVolume with
              values := [("floor_height", .double ⟨2⟩), ("extrusion_height", .double ⟨3⟩)] } ∧
      exampleVolume.setPolyLoop [exampleVector 0 0 0, exampleVector 1 0 0] =
        .ok { exampleVolume with
              subconfigs := [("poly_loop",
                { values := [("0", .vec3 (exampleVector 0 0 0)),
                    ("1", .vec3 (exampleVector 1 0 0))],
                  subconfigs := [] })] } ∧
      (SemanticAttributes.Setter.setSemanticOrientUp (exampleVector 0 1 0)).apply
          (SemanticAttributes.create "scene") =
        .ok { SemanticAttributes.create "scene" with
              values := [("use_semantic_frame", .bool true),
                ("semantic_orient_up", .vec3 (exampleVector 0 1 0))] } ∧
      SemanticVolumeAttributes.getExtrusionHeight
          { exampleVolume with
            values := [("floor_height", .double ⟨2⟩), ("extrusion_height", .double ⟨3⟩)] } =
        exampleVolume.getExtrusionHeight ∧
      SemanticAttributes.getSemanticOrientFront
          { SemanticAttributes.create "scene" with
            values := [("use_semantic_frame", .bool true),
              ("semantic_orient_up", .vec3 (exampleVector 0 1 0))] } =
        (SemanticAttributes.create "scene").getSemanticOrientFront :=
  ⟨by decide, by decide, by decide,
    (setters_write_only_their_keys exampleVolume _ _
      (SemanticVolumeAttributes.Setter.setFloorHeight ⟨2⟩)
      [exampleVector 0 0 0, exampleVector 1 0 0] (SemanticAttributes.create "scene") _
      (SemanticAttributes.Setter.setSemanticOrientUp (exampleVector 0 1 0))
      rfl rfl rfl).1.2.2.2.1 (by decide),
    (setters_write_only_their_keys exampleVolume _ _
      (SemanticVolumeAttributes.Setter.setFloorHeight ⟨2⟩)
      [exampleVector 0 0 0, exampleVector 1 0 0] (SemanticAttributes.create "scene") _
      (SemanticAttributes.Setter.setSemanticOrientUp (exampleVector 0 1 0))
      rfl rfl rfl).2.2.2.2.1 (by decide)⟩

/-! ## Decimal names are distinct -/

theorem digitValue_digitChar (m : Nat) (h : m < 10) : digitValue (Nat.digitChar m) = m := by
  interval_cases m <;> rfl

theorem decimalValue_toDigitsCore (fuel : Nat) :
    ∀ (n : Nat) (ds : List Char), n < fuel →
      decimalValue (Nat.toDigitsCore 10 fuel n ds) 0 = decimalValue ds n := by
  induction fuel with
  | zero => intro n ds h; omega
  | succ fuel ih =>
    intro n ds h
    unfold Nat.toDigitsCore
    by_cases h0 : n / 10 = 0
    · have hn : n < 10 := by omega
      simp only [h0, ↓reduceIte]
      simp [decimalValue, List.foldl, Nat.mod_eq_of_lt hn, digitValue_digitChar n hn]
    · simp only [h0, ↓reduceIte]
      rw [ih (n / 10) _ (by omega)]
      have hd := digitValue_digitChar (n % 10) (Nat.mod_lt _ (by decide))
      simp only [decimalValue, List.foldl, hd]
      congr 1
      omega

theorem toString_nat_injective (a b : Nat) (h : toString a = toString b) : a = b := by
  have h1 : Nat.toDigits 10 a = Nat.toDigits 10 b := by
    have := congrArg String.data h
    simpa [toString, Nat.repr, List.asString] using this
  have ha := decimalValue_toDigitsCore (a + 1) a [] (by omega)
  have hb := decimalValue_toDigitsCore (b + 1) b [] (by omega)
  unfold Nat.toDigits at h1
  rw [h1] at ha
  rw [ha] at hb
  simpa [decimalValue] using hb

theorem subAttrKey_injective (stem : String) (a b : Nat)
    (h : subAttrKey stem (a : Int) = subAttrKey stem (b : Int)) : a = b := by
  have h1 := congrArg String.data h
  simp only [subAttrKey, String.data_append] at h1
  have h2 := List.append_cancel_left h1
  have h3 : toString (a : Int) = toString (b : Int) := String.ext h2
  exact toString_nat_injective a b h3

/-! ## The invariant of the region collection -/

namespace SemanticAttributes

theorem regionInv_of_fresh (s : SemanticAttributes) (h : Fresh s) : RegionInv s := by
  obtain ⟨hsub, hq⟩ := h
  have hc : s.regionChildren = [] := by
    simp [regionChildren, regionAnnotationConfig_eq, hsub, Configuration.empty]
  exact ⟨hq, by simp [hc]⟩

theorem regionInv_keys (s : SemanticAttributes) (h : RegionInv s) :
    s.regionKeys = (List.range s.regionChildren.length).map
      (fun (i : Nat) => subAttrKey "region_desc_" (i : Int)) := by
  have := congrArg (List.map Prod.fst) h.2
  simpa [regionKeys, List.map_map, Function.comp_def] using this

theorem regionInv_ids (s : SemanticAttributes) (h : RegionInv s) :
    s.regionIDs = (List.range s.regionChildren.length).map (fun (i : Nat) => (i : Int)) := by
  have := congrArg (List.map Prod.snd) h.2
  simpa [regionIDs, List.map_map, Function.comp_def] using this

theorem regionInv_next_free (s : SemanticAttributes) (h : RegionInv s) :
    subAttrKey "region_desc_" (s.regionChildren.length : Int) ∉
      s.regionChildren.map Prod.fst := by
  have hk := regionInv_keys s h
  unfold regionKeys at hk
  rw [hk]
  intro hmem
  obtain ⟨i, hi, he⟩ := List.mem_map.mp hmem
  have := subAttrKey_injective _ _ _ he
  have hlt := List.mem_range.mp hi
  omega

theorem getNumRegionInstances_eq (s : SemanticAttributes) :
    s.getNumRegionInstances = s.regionChildren.length := rfl

/-- In a state of the invariant every add completes, takes the child count as
ID, appends the child and keeps the invariant. -/
theorem regionInv_add (s : SemanticAttributes) (inst : SemanticVolumeAttributes)
    (h : RegionInv s) :
    ∃ s1, s.addRegionInstanceAttrs inst = .ok s1 ∧ RegionInv s1 ∧
      s1.regionChildren = s.regionChildren ++
        [(subAttrKey "region_desc_" (s.regionChildren.length : Int),
          { inst with ID := (s.regionChildren.length : Int) })] := by
  obtain ⟨s1, hs1⟩ := addRegionInstanceAttrs_complete s inst
    (s.regionChildren.length : Int) [] (Or.inr ⟨h.1, rfl, rfl⟩) (regionInv_next_free s h)
  obtain ⟨id, rest, hid, _, hch, hq, _⟩ := addRegionInstanceAttrs_ok s s1 inst hs1
  rcases hid with hcons | ⟨_, rfl, rfl⟩
  · rw [h.1] at hcons
    cases hcons
  · rw [getNumRegionInstances_eq] at hch
    refine ⟨s1, hs1, ⟨hq, ?_⟩, hch⟩
    rw [hch]
    simp only [List.map_append, List.length_append, List.length_singleton, List.map_cons,
      List.map_nil, List.range_succ, h.2]

theorem regionInv_clear (s : SemanticAttributes) (h : RegionInv s) :
    RegionInv s.clearRegionInstances := by
  obtain ⟨_, hc, hq, _⟩ := clearRegionInstances_spec s
  exact ⟨by rw [hq, h.1], by simp [hc]⟩

/-- From a state of the invariant every sequence of adds and clears runs to
its end and leaves a state of the invariant. -/
theorem regionInv_run (calls : List RegionCall) :
    ∀ s : SemanticAttributes, RegionInv s →
      ∃ s1, runRegionCalls s calls = .ok s1 ∧ RegionInv s1 := by
  induction calls with
  | nil => intro s h; exact ⟨s, rfl, h⟩
  | cons c rest ih =>
    intro s h
    cases c with
    | add inst =>
      obtain ⟨s1, hs1, hinv, _⟩ := regionInv_add s inst h
      obtain ⟨s2, hs2, hinv2⟩ := ih s1 hinv
      exact ⟨s2, by simp [runRegionCalls, hs1, hs2], hinv2⟩
    | clear =>
      obtain ⟨s2, hs2, hinv2⟩ := ih _ (regionInv_clear s h)
      exact ⟨s2, by simp [runRegionCalls, hs2], hinv2⟩

/-- A run of adds alone grows the collection by one child per add. -/
theorem regionInv_run_adds (insts : List SemanticVolumeAttributes) :
    ∀ s : SemanticAttributes, RegionInv s →
      ∃ s1, runRegionCalls s (insts.map RegionCall.add) = .ok s1 ∧ RegionInv s1 ∧
        s1.regionChildren.length = s.regionChildren.length + insts.length := by
  induction insts with
  | nil => intro s h; exact ⟨s, rfl, h, rfl⟩
  | cons inst rest ih =>
    intro s h
    obtain ⟨s1, hs1, hinv, hch⟩ := regionInv_add s inst h
    obtain ⟨s2, hs2, hinv2, hlen⟩ := ih s1 hinv
    have hl1 : s1.regionChildren.length = s.regionChildren.length + 1 := by
      rw [hch]; simp
    refine ⟨s2, by simp [runRegionCalls, hs1, hs2], hinv2, ?_⟩
    rw [hlen, hl1, List.length_cons]
    omega

theorem regionInv_ids_nodup (s : SemanticAttributes) (h : RegionInv s) :
    s.regionIDs.Nodup := by
  rw [regionInv_ids s h]
  exact (List.nodup_range _).map (fun a b hab => by exact_mod_cast hab)

theorem regionInv_keys_nodup (s : SemanticAttributes) (h : RegionInv s) :
    s.regionKeys.Nodup := by
  rw [regionInv_keys s h]
  exact (List.nodup_range _).map (fun a b hab => subAttrKey_injective _ a b hab)

end SemanticAttributes

/-! ## C3: the ID an add assigns -/

/-- C3: a completed call of `addRegionInstanceAttrs` gives the instance the ID
at the front of the deque `availableRegionInstIDs_` and removes it from the
deque when the deque is non-empty, and otherwise the current number of
children of `region_annotations`; the instance is stored, with this ID, as a
new child under the name synthesized from the ID, after the children already
there.  The call completes when that name is not in use.  In particular, on an
empty collection with an empty free-list the first add yields ID 0 and the
second ID 1, and with one live child of ID 1 and the released ID 0 the next add
yields ID 0. -/
theorem add_assigns_released_or_next_id (s : SemanticAttributes)
    (inst : SemanticVolumeAttributes) :
    (∀ s1, s.addRegionInstanceAttrs inst = .ok s1 →
        (∀ front others, s.availableRegionInstIDs_ = front :: others →
          s1.availableRegionInstIDs_ = others ∧
          s1.regionChildren = s.regionChildren ++
            [(subAttrKey "region_desc_" front, { inst with ID := front })]) ∧
        (s.availableRegionInstIDs_ = [] →
          s1.availableRegionInstIDs_ = [] ∧
          s1.regionChildren = s.regionChildren ++
            [(subAttrKey "region_desc_" (s.getNumRegionInstances : Int),
              { inst with ID := (s.getNumRegionInstances : Int) })]) ∧
        s1.getNumRegionInstances = s.getNumRegionInstances + 1) ∧
      (∀ front others, s.availableRegionInstIDs_ = front :: others →
        subAttrKey "region_desc_" front ∉ s.regionKeys →
        ∃ s1, s.addRegionInstanceAttrs inst = .ok s1) ∧
      (s.availableRegionInstIDs_ = [] →
        subAttrKey "region_desc_" (s.getNumRegionInstances : Int) ∉ s.regionKeys →
        ∃ s1, s.addRegionInstanceAttrs inst = .ok s1) ∧
      (s.regionChildren = [] → s.availableRegionInstIDs_ = [] →
        ∀ second : SemanticVolumeAttributes,
          ∃ s1 s2, s.addRegionInstanceAttrs inst = .ok s1 ∧
            s1.addRegionInstanceAttrs second = .ok s2 ∧
            s1.regionIDs = [0] ∧ s2.regionIDs = [0, 1]) ∧
      (∀ child : SemanticVolumeAttributes,
        s.regionChildren = [("region_desc_1", child)] → child.ID = 1 →
        s.availableRegionInstIDs_ = [0] →
        ∃ s1, s.addRegionInstanceAttrs inst = .ok s1 ∧ s1.regionIDs = [1, 0] ∧
          s1.availableRegionInstIDs_ = []) := by
  refine ⟨fun s1 h => ?_, fun front others hq hfree => ?_, fun hq hfree => ?_,
    fun hc hq second => ?_, fun child hc hid hq => ?_⟩
  · obtain ⟨id, rest, hcase, _, hch, hrest, _⟩ :=
      SemanticAttributes.addRegionInstanceAttrs_ok s s1 inst h
    have hlen : s1.getNumRegionInstances = s.getNumRegionInstances + 1 := by
      rw [SemanticAttributes.getNumRegionInstances_eq, hch]
      simp [SemanticAttributes.getNumRegionInstances_eq]
    refine ⟨fun front others hq => ?_, fun hq => ?_, hlen⟩
    · rcases hcase with hcons | ⟨hnil, _, _⟩
      · rw [hq] at hcons
        obtain ⟨rfl, rfl⟩ := List.cons.inj hcons
        exact ⟨hrest, hch⟩
      · rw [hq] at hnil
        cases hnil
    · rcases hcase with hcons | ⟨_, rfl, rfl⟩
      · rw [hq] at hcons
        cases hcons
      · exact ⟨hrest, hch⟩
  · exact SemanticAttributes.addRegionInstanceAttrs_complete s inst front others
      (Or.inl hq) hfree
  · exact SemanticAttributes.addRegionInstanceAttrs_complete s inst _ []
      (Or.inr ⟨hq, rfl, rfl⟩) hfree
  · have hinv : SemanticAttributes.RegionInv s := ⟨hq, by simp [hc]⟩
    obtain ⟨s1, hs1, hinv1, hch1⟩ := SemanticAttributes.regionInv_add s inst hinv
    obtain ⟨s2, hs2, _, hch2⟩ := SemanticAttributes.regionInv_add s1 second hinv1
    refine ⟨s1, s2, hs1, hs2, ?_, ?_⟩
    · simp [SemanticAttributes.regionIDs, hch1, hc]
    · simp [SemanticAttributes.regionIDs, hch2, hch1, hc]
  · have hfree : subAttrKey "region_desc_" 0 ∉ s.regionChildren.map Prod.fst := by
      rw [hc]
      simp only [List.map_cons, List.map_nil, List.mem_singleton]
      decide
    obtain ⟨s1, hs1⟩ := SemanticAttributes.addRegionInstanceAttrs_complete s inst 0 []
      (Or.inl hq) hfree
    obtain ⟨id, rest, hcase, _, hch, hrest, _⟩ :=
      SemanticAttributes.addRegionInstanceAttrs_ok s s1 inst hs1
    rcases hcase with hcons | ⟨hnil, _, _⟩
    · rw [hq] at hcons
      obtain ⟨rfl, rfl⟩ := List.cons.inj hcons
      exact ⟨s1, hs1, by simp [SemanticAttributes.regionIDs, hch, hc, hid], hrest⟩
    · rw [hq] at hnil
      cases hnil

/-- C3 at concrete scenes: two adds on a fresh scene yield the IDs 0 and 1, and
an add on the scene with one live region of ID 1 and the released ID 0 yields
ID 0 and empties the free-list. -/
theorem add_assigns_released_or_next_id_witness :
    (∃ s1 s2, (SemanticAttributes.create "scene").addRegionInstanceAttrs
          (exampleRegion "hall") = .ok s1 ∧
        s1.addRegionInstanceAttrs (exampleRegion "kitchen") = .ok s2 ∧
        s1.regionIDs = [0] ∧ s2.regionIDs = [0, 1]) ∧
      (∃ s1, releasedScene.addRegionInstanceAttrs (exampleRegion "attic") = .ok s1 ∧
        s1.regionIDs = [1, 0] ∧ s1.availableRegionInstIDs_ = []) :=
  ⟨(add_assigns_released_or_next_id (SemanticAttributes.create "scene")
      (exampleRegion "hall")).2.2.2.1 (by decide) (by decide) (exampleRegion "kitchen"),
    (add_assigns_released_or_next_id releasedScene (exampleRegion "attic")).2.2.2.2
      { exampleRegion "hall" with ID := 1 } (by decide) (by decide) (by decide)⟩

/-! ## C4: IDs and names of live children are unique -/

/-- C4: after any sequence of `addRegionInstanceAttrs` and
`clearRegionInstances` calls on a freshly constructed object, every call has
completed, no two live children of `region_annotations` have the same ID, no
two are stored under the same name, no ID in `availableRegionInstIDs_` is the
ID of a live child, and a further add completes and keeps every child already
there.  Instances are values here, which stands for pairwise distinct
objects. -/
theorem live_region_ids_unique (s0 : SemanticAttributes)
    (calls : List SemanticAttributes.RegionCall) (hfresh : SemanticAttributes.Fresh s0) :
    ∃ s, SemanticAttributes.runRegionCalls s0 calls = .ok s ∧
      s.regionIDs.Nodup ∧ s.regionKeys.Nodup ∧
      (∀ id ∈ s.availableRegionInstIDs_, id ∉ s.regionIDs) ∧
      ∀ inst : SemanticVolumeAttributes,
        ∃ s1 entry, s.addRegionInstanceAttrs inst = .ok s1 ∧
          s1.regionChildren = s.regionChildren ++ [entry] := by
  obtain ⟨s, hrun, hinv⟩ := SemanticAttributes.regionInv_run calls s0
    (SemanticAttributes.regionInv_of_fresh s0 hfresh)
  refine ⟨s, hrun, SemanticAttributes.regionInv_ids_nodup s hinv,
    SemanticAttributes.regionInv_keys_nodup s hinv, ?_, fun inst => ?_⟩
  · intro id hid
    rw [hinv.1] at hid
    cases hid
  · obtain ⟨s1, hs1, _, hch⟩ := SemanticAttributes.regionInv_add s inst hinv
    exact ⟨s1, _, hs1, hch⟩

/-- C4 at a concrete run: two adds, a clear and two more adds on a fresh
scene. -/
theorem live_region_ids_unique_witness :
    SemanticAttributes.Fresh (SemanticAttributes.create "scene") ∧
      ∃ s, SemanticAttributes.runRegionCalls (SemanticAttributes.create "scene")
          [.add (exampleRegion "hall"), .add (exampleRegion "kitchen"), .clear,
            .add (exampleRegion "attic"), .add (exampleRegion "hall")] = .ok s ∧
        s.regionIDs.Nodup ∧ s.regionKeys.Nodup ∧
        (∀ id ∈ s.availableRegionInstIDs_, id ∉ s.regionIDs) ∧
        ∀ inst : SemanticVolumeAttributes,
          ∃ s1 entry, s.addRegionInstanceAttrs inst = .ok s1 ∧
            s1.regionChildren = s.regionChildren ++ [entry] :=
  ⟨by decide, live_region_ids_unique (SemanticAttributes.create "scene") _ (by decide)⟩

/-! ## C5 and C6: clearing the region collection -/

/-- C5: when the region collection was built by `addRegionInstanceAttrs` calls
on a freshly constructed object (one or more, or none at all), after
`clearRegionInstances()` the count is 0, `getRegionInstances()` is empty and
the subconfig `region_annotations` is still there, empty; the next add
completes, assigns ID 0 and makes the count 1. -/
theorem clear_then_add_restarts (s0 : SemanticAttributes)
    (insts : List SemanticVolumeAttributes) (hfresh : SemanticAttributes.Fresh s0) :
    ∃ s, SemanticAttributes.runRegionCalls s0 (insts.map .add) = .ok s ∧
      s.getNumRegionInstances = insts.length ∧
      s.clearRegionInstances.getNumRegionInstances = 0 ∧
      s.clearRegionInstances.getRegionInstances = [] ∧
      s.clearRegionInstances.toConfiguration.hasSubconfig "region_annotations" = true ∧
      s.clearRegionInstances.regionAnnotationConfig_ = Configuration.empty ∧
      ∀ inst : SemanticVolumeAttributes,
        ∃ s1, s.clearRegionInstances.addRegionInstanceAttrs inst = .ok s1 ∧
          s1.regionChildren = [("region_desc_0", { inst with ID := 0 })] ∧
          s1.getNumRegionInstances = 1 := by
  have hinv0 := SemanticAttributes.regionInv_of_fresh s0 hfresh
  have hc0 : s0.regionChildren = [] := by
    simp [SemanticAttributes.regionChildren, SemanticAttributes.regionAnnotationConfig_eq,
      hfresh.1, Configuration.empty]
  obtain ⟨s, hrun, hinv, hlen⟩ := SemanticAttributes.regionInv_run_adds insts s0 hinv0
  obtain ⟨hsub, hcl, _, _⟩ := SemanticAttributes.clearRegionInstances_spec s
  have hcfg : s.clearRegionInstances.regionAnnotationConfig_ = Configuration.empty := by
    simp [SemanticAttributes.regionAnnotationConfig_eq, hsub]
  refine ⟨s, hrun, ?_, ?_, ?_, ?_, hcfg, fun inst => ?_⟩
  · rw [SemanticAttributes.getNumRegionInstances_eq, hlen, hc0]
    simp
  · rw [SemanticAttributes.getNumRegionInstances_eq, hcl]
    rfl
  · simp [SemanticAttributes.getRegionInstances, getSubAttributesListInternal, hcfg,
      Configuration.empty]
  · simp [Configuration.hasSubconfig, hsub]
  · obtain ⟨s1, hs1, _, hch⟩ := SemanticAttributes.regionInv_add _ inst
      (SemanticAttributes.regionInv_clear s hinv)
    rw [hcl] at hch
    refine ⟨s1, hs1, hch, ?_⟩
    rw [SemanticAttributes.getNumRegionInstances_eq, hch]
    rfl

/-- C5 at a concrete collection of two regions on a fresh scene. -/
theorem clear_then_add_restarts_witness :
    SemanticAttributes.Fresh (SemanticAttributes.create "scene") ∧
      ∃ s, SemanticAttributes.runRegionCalls (SemanticAttributes.create "scene")
          ([exampleRegion "hall", exampleRegion "kitchen"].map .add) = .ok s ∧
        s.getNumRegionInstances = 2 ∧
        s.clearRegionInstances.getNumRegionInstances = 0 ∧
        s.clearRegionInstances.getRegionInstances = [] ∧
        s.clearRegionInstances.toConfiguration.hasSubconfig "region_annotations" = true ∧
        s.clearRegionInstances.regionAnnotationConfig_ = Configuration.empty ∧
        ∀ inst : SemanticVolumeAttributes,
          ∃ s1, s.clearRegionInstances.addRegionInstanceAttrs inst = .ok s1 ∧
            s1.regionChildren = [("region_desc_0", { inst with ID := 0 })] ∧
            s1.getNumRegionInstances = 1 :=
  ⟨by decide,
    clear_then_add_restarts (SemanticAttributes.create "scene")
      [exampleRegion "hall", exampleRegion "kitchen"] (by decide)⟩

namespace SemanticAttributes

theorem getRegionInstances_perm (s : SemanticAttributes) :
    List.Perm s.getRegionInstances (s.regionChildren.map Prod.snd) :=
  List.perm_insertionSort _ _

theorem getRegionInstances_sorted (s : SemanticAttributes) :
    List.Sorted (fun a b => a ≤ b) (s.getRegionInstances.map (fun r => r.ID)) := by
  haveI : IsTotal SemanticVolumeAttributes (fun a b => a.ID ≤ b.ID) :=
    ⟨fun a b => le_total a.ID b.ID⟩
  haveI : IsTrans SemanticVolumeAttributes (fun a b => a.ID ≤ b.ID) :=
    ⟨fun _ _ _ h1 h2 => le_trans h1 h2⟩
  have h := List.sorted_insertionSort (fun (a b : SemanticVolumeAttributes) => a.ID ≤ b.ID)
    (s.regionChildren.map Prod.snd)
  unfold List.Sorted
  rw [List.pairwise_map]
  exact h

theorem getRegionInstances_ids_perm (s : SemanticAttributes) :
    List.Perm (s.getRegionInstances.map (fun r => r.ID)) s.regionIDs := by
  have h := (getRegionInstances_perm s).map (fun r => r.ID)
  simpa [regionIDs, List.map_map, Function.comp_def] using h

theorem getRegionInstances_strict (s : SemanticAttributes) (h : s.regionIDs.Nodup) :
    List.Sorted (fun a b => a < b) (s.getRegionInstances.map (fun r => r.ID)) :=
  (getRegionInstances_sorted s).lt_of_le ((getRegionInstances_ids_perm s).nodup_iff.mpr h)

end SemanticAttributes

/-- C7: in every state reached from a freshly constructed object by
`addRegionInstanceAttrs` and `clearRegionInstances` calls, `getRegionInstances()`
returns exactly the live children of `region_annotations`, each once, in
strictly ascending ID order, and its length is `getNumRegionInstances()`.  The
order does not depend on the order of insertion: in any state at all the list
is a permutation of the children in ascending ID order, strictly ascending
whenever the IDs are distinct. -/
theorem region_list_ascending (s : SemanticAttributes) :
    List.Perm s.getRegionInstances (s.regionChildren.map Prod.snd) ∧
      List.Sorted (fun a b => a ≤ b) (s.getRegionInstances.map (fun r => r.ID)) ∧
      s.getRegionInstances.length = s.getNumRegionInstances ∧
      (s.regionIDs.Nodup →
        List.Sorted (fun a b => a < b) (s.getRegionInstances.map (fun r => r.ID))) ∧
      (∀ (s0 : SemanticAttributes) (calls : List SemanticAttributes.RegionCall),
        SemanticAttributes.Fresh s0 → SemanticAttributes.runRegionCalls s0 calls = .ok s →
        List.Sorted (fun a b => a < b) (s.getRegionInstances.map (fun r => r.ID))) := by
  refine ⟨SemanticAttributes.getRegionInstances_perm s,
    SemanticAttributes.getRegionInstances_sorted s, ?_,
    SemanticAttributes.getRegionInstances_strict s, fun s0 calls hfresh hrun => ?_⟩
  · rw [(SemanticAttributes.getRegionInstances_perm s).length_eq,
      SemanticAttributes.getNumRegionInstances_eq, List.length_map]
  · obtain ⟨s2, hrun2, hinv⟩ := SemanticAttributes.regionInv_run calls s0
      (SemanticAttributes.regionInv_of_fresh s0 hfresh)
    rw [hrun] at hrun2
    cases hrun2
    exact SemanticAttributes.getRegionInstances_strict s
      (SemanticAttributes.regionInv_ids_nodup s hinv)

/-- C7 at the scene whose regions were stored in the ID order 2, 0, 1, where
the list carries the IDs 0, 1, 2; and at the scene after eleven adds, where the
region of ID 10 comes last. -/
theorem region_list_ascending_witness :
    (shuffledScene.regionIDs = [2, 0, 1] ∧
        shuffledScene.getRegionInstances.map (fun r => r.ID) = [0, 1, 2] ∧
        List.Sorted (fun a b => a < b)
          (shuffledScene.getRegionInstances.map (fun r => r.ID))) ∧
      (SemanticAttributes.runRegionCalls (SemanticAttributes.create "scene")
          (List.replicate 11 (.add (exampleRegion "room"))) = .ok elevenRegions ∧
        elevenRegions.getRegionInstances.map (fun r => r.ID) =
          [0, 1, 2, 3, 4, 5, 6, 7, 8, 9, 10] ∧
        List.Sorted (fun a b => a < b)
          (elevenRegions.getRegionInstances.map (fun r => r.ID))) :=
  ⟨⟨by decide, by decide, (region_list_ascending shuffledScene).2.2.2.1 (by decide)⟩,
    ⟨by decide, by decide,
      (region_list_ascending elevenRegions).2.2.2.2 (SemanticAttributes.create "scene")
        (List.replicate 11 (.add (exampleRegion "room"))) (by decide) (by decide)⟩⟩

/-! ## C9: the polygon loop -/

theorem assocUpsert_of_none {β : Type} (l : List (String × β)) (k : String) (v : β)
    (h : assocFind l k = none) : assocUpsert l k v = l ++ [(k, v)] := by
  induction l with
  | nil => rfl
  | cons p rest ih =>
    obtain ⟨k1, w⟩ := p
    by_cases hk : k1 = k
    · simp [assocFind, hk] at h
    · simp only [assocFind, hk, ↓reduceIte] at h
      simp [assocUpsert, hk, ih h]

theorem assocFind_append_none {β : Type} (l : List (String × β)) (k k2 : String) (v : β)
    (h : assocFind l k2 = none) (hne : k ≠ k2) : assocFind (l ++ [(k, v)]) k2 = none := by
  induction l with
  | nil => simp [assocFind, hne]
  | cons p rest ih =>
    obtain ⟨k1, w⟩ := p
    by_cases hk : k1 = k2
    · simp [assocFind, hk] at h
    · simp only [assocFind, hk, ↓reduceIte] at h
      simp [assocFind, hk, ih h]

theorem indexKey_injective (a b : Nat)
    (h : Configuration.indexKey a = Configuration.indexKey b) : a = b :=
  toString_nat_injective a b h

/-- A configuration whose children have no inhabitant has no child. -/
theorem Configuration.subconfigs_eq_nil (c : Configuration Empty) : c.subconfigs = [] := by
  cases hc : c.subconfigs with
  | nil => rfl
  | cons p rest => exact p.2.elim

/-- The writing loop appends one entry per value when the names from index `i`
on are unused. -/
theorem Configuration.setIndexed_ok (vals : List Value) :
    ∀ (c : Configuration Empty) (i : Nat),
      (∀ j, i ≤ j → assocFind c.values (Configuration.indexKey j) = none) →
      Configuration.setIndexed c i vals =
        .ok { c with values := c.values ++ indexedEntries i vals } := by
  induction vals with
  | nil => intro c i _; simp [Configuration.setIndexed, indexedEntries]
  | cons v rest ih =>
    intro c i hfree
    have hset : c.set (Configuration.indexKey i) v =
        .ok { c with values := c.values ++ [(Configuration.indexKey i, v)] } := by
      rw [Configuration.set_ok_of_valid c _ v
        (by simp [Configuration.hasSubconfig, Configuration.subconfigs_eq_nil c, assocFind]),
        assocUpsert_of_none _ _ _ (hfree i (Nat.le_refl i))]
    simp only [Configuration.setIndexed, hset]
    rw [ih _ (i + 1)]
    · simp [indexedEntries]
    · intro j hj
      refine assocFind_append_none _ _ _ _ (hfree j (by omega)) (fun e => ?_)
      have := indexKey_injective _ _ e
      omega

/-- Looking an index up among the entries written from index `i` on. -/
theorem assocFind_indexedEntries (vals : List Value) :
    ∀ (i j : Nat) (h : j < vals.length),
      assocFind (indexedEntries i vals) (Configuration.indexKey (i + j)) =
        some (vals.get ⟨j, h⟩) := by
  induction vals with
  | nil => intro i j h; simp at h
  | cons v rest ih =>
    intro i j h
    cases j with
    | zero => simp [indexedEntries, assocFind]
    | succ j =>
      have hne : ¬ Configuration.indexKey i = Configuration.indexKey (i + (j + 1)) := by
        intro e
        have := indexKey_injective _ _ e
        omega
      simp only [indexedEntries, assocFind, hne, ↓reduceIte]
      have h2 : j < rest.length := by simpa using h
      have := ih (i + 1) j h2
      rw [show i + 1 + j = i + (j + 1) by omega] at this
      simpa using this

/-- The reading loop returns the points whose entries are there. -/
theorem Configuration.getIndexed_ok (child : Configuration Empty) (pts : List Vector3) :
    ∀ i : Nat,
      (∀ (j : Nat) (h : j < pts.length),
        assocFind child.values (Configuration.indexKey (i + j)) =
          some (.vec3 (pts.get ⟨j, h⟩))) →
      Configuration.getIndexed child Value.asVec3 i pts.length = .ok pts := by
  induction pts with
  | nil => intro i _; rfl
  | cons p rest ih =>
    intro i hfind
    have h0 := hfind 0 (by simp)
    simp only [Nat.add_zero, List.get_eq_getElem, List.getElem_cons_zero] at h0
    have hrest := ih (i + 1) (fun j h => by
      have := hfind (j + 1) (by simpa using h)
      rw [show i + (j + 1) = i + 1 + j by omega] at this
      simpa using this)
    simp [Configuration.getIndexed, Configuration.get, h0, Value.asVec3, hrest]

theorem indexedEntries_length (vals : List Value) :
    ∀ i : Nat, (indexedEntries i vals).length = vals.length := by
  induction vals with
  | nil => intro i; rfl
  | cons v rest ih => intro i; simp [indexedEntries, ih]

/-- C9: the polygon loop round-trips: in every state, holding a loop of any
length or none, and for every list `pts` of 3-vectors, `setPolyLoop(pts)`
completes and `getPolyLoop()` then returns exactly `pts`; the subconfig
`poly_loop` then holds one value per point, named by the index of the point,
and nothing else. -/
theorem poly_loop_round_trip (s : SemanticVolumeAttributes) (pts : List Vector3) :
    ∃ s1, s.setPolyLoop pts = .ok s1 ∧ s1.getPolyLoop = .ok pts ∧
      assocFind s1.subconfigs "poly_loop" =
        some { values := indexedEntries 0 (pts.map Value.vec3), subconfigs := [] } := by
  have hwrite : ∀ child : Configuration Empty,
      Configuration.setIndexed { child with values := [] } 0 (pts.map Value.vec3) =
        .ok { values := indexedEntries 0 (pts.map Value.vec3), subconfigs := [] } := by
    intro child
    rw [Configuration.setIndexed_ok _ { child with values := [] } 0 (fun j _ => rfl)]
    simp [Configuration.subconfigs_eq_nil child]
  have hset : ∃ c0 : Configuration (Configuration Empty),
      s.toConfiguration.setSubconfigValsOfTypeInVector "poly_loop" (pts.map Value.vec3) =
        .ok (c0.putSubconfig "poly_loop"
          { values := indexedEntries 0 (pts.map Value.vec3), subconfigs := [] }) := by
    unfold Configuration.setSubconfigValsOfTypeInVector Configuration.editSubconfig
    cases assocFind s.subconfigs "poly_loop" with
    | none =>
      exact ⟨{ s.toConfiguration with
          subconfigs := assocUpsert s.subconfigs "poly_loop" Configuration.empty },
        by simp only [hwrite]⟩
    | some child => exact ⟨s.toConfiguration, by simp only [hwrite]⟩
  obtain ⟨c0, hc0⟩ := hset
  have hfind : assocFind
      (c0.putSubconfig "poly_loop"
        { values := indexedEntries 0 (pts.map Value.vec3), subconfigs := [] }).subconfigs
      "poly_loop" =
        some { values := indexedEntries 0 (pts.map Value.vec3), subconfigs := [] } := by
    simp [Configuration.putSubconfig, assocFind_upsert_self]
  refine ⟨{ s with toConfiguration := (c0.putSubconfig "poly_loop"
      { values := indexedEntries 0 (pts.map Value.vec3), subconfigs := [] }) }, ?_, ?_, hfind⟩
  · simp [SemanticVolumeAttributes.setPolyLoop, SemanticVolumeAttributes.withConfig, hc0]
  · simp only [SemanticVolumeAttributes.getPolyLoop,
      Configuration.getSubconfigValsOfTypeInVector, hfind]
    have hlen : (indexedEntries 0 (pts.map Value.vec3)).length = pts.length := by
      rw [indexedEntries_length, List.length_map]
    rw [hlen]
    refine Configuration.getIndexed_ok _ pts 0 (fun j h => ?_)
    have := assocFind_indexedEntries (pts.map Value.vec3) 0 j (by simpa using h)
    simpa using this

/-- C9 at a region that holds a loop of three points: after `setPolyLoop` with
one point, `getPolyLoop` returns that one point. -/
theorem poly_loop_round_trip_witness :
    loopedRegion.getPolyLoop =
        .ok [exampleVector 0 0 0, exampleVector 1 0 0, exampleVector 1 0 1] ∧
      ∃ s1, loopedRegion.setPolyLoop [exampleVector 5 5 5] = .ok s1 ∧
        s1.getPolyLoop = .ok [exampleVector 5 5 5] ∧
        assocFind s1.subconfigs "poly_loop" =
          some { values := indexedEntries 0 ([exampleVector 5 5 5].map Value.vec3),
                 subconfigs := [] } :=
  ⟨by decide, poly_loop_round_trip loopedRegion [exampleVector 5 5 5]⟩

end Esp
